import Mathlib

/-!
Formal model of the PaperlessLinkService facet engine and document-filter
query compiler, together with proofs of its key behavioural properties.

The Go source is shallowly embedded:

* pure helpers (`parseValueList`, `generateID`, `compareLabels`,
  `sortValues`, `getValueColumnName`) become Lean functions on
  `String`/`Int`/`List`;
* dynamic JSON values (`interface{}` after `json.Unmarshal`) become the
  inductive `GoVal`; Go type assertions become pattern matches;
* the SQL fragments produced by the filter compiler are represented by the
  inductive `Cond`, one constructor per `fmt.Sprintf` site of the source,
  with `renderCond` reproducing the exact fragment text, so that claims about
  "the fragment references field k" or "the placeholders appear in order"
  can be stated structurally;
* database access is abstracted by a `DBState` record of total functions
  (i.e. every query succeeds and returns whatever the record says), since
  the service issues read-only statements whose results are opaque data;
* Go's `int` is modelled as `Int` (with explicit two's-complement wrap-around
  where the source relies on overflow, namely `generateID`).
-/

namespace Paperless

/-! ## String helpers (src/unnamed/part_005, src/main.go) -/

/-- Characters treated as whitespace by Go's `strings.TrimSpace`
(`unicode.IsSpace` restricted to the Latin-1 range; the remaining Unicode
space code points do not occur in the data handled here). -/
def isGoSpace (c : Char) : Bool :=
  c == ' ' || c == '\t' || c == '\n' || c == '\x0b' || c == '\x0c' ||
    c == '\r' || c == '\u0085' || c == '\u00A0'

/-- Go `strings.TrimSpace`: drop leading and trailing whitespace. -/
def trimSpace (s : String) : String :=
  String.mk (((s.toList.dropWhile isGoSpace).reverse.dropWhile isGoSpace).reverse)

/-- Go `strings.ToLower`, restricted to ASCII (the only case folding
exercised by the service's inputs). -/
def goToLower (s : String) : String :=
  String.mk (s.toList.map Char.toLower)

/-- The separator predicate of `parseValueList` in src/unnamed/part_005:
split on comma, colon, or semicolon. -/
def isValueSep (c : Char) : Bool :=
  c == ',' || c == ':' || c == ';'

/-- Go `strings.FieldsFunc f s`: the maximal runs of characters not
satisfying `f`, in order, empty runs dropped. -/
def fieldsFunc (f : Char → Bool) (s : String) : List String :=
  ((s.toList.splitOnP f).filter (· ≠ [])).map String.mk

/-- `parseValueList` of src/unnamed/part_005: split a stored value on any of
`,`, `:`, `;` via `strings.FieldsFunc`. -/
def parseValueList (value : String) : List String :=
  fieldsFunc isValueSep value

/-- The older `parseValueList` of src/main.go, which splits only on comma
and colon. -/
def parseValueListLegacy (value : String) : List String :=
  fieldsFunc (fun c => c == ',' || c == ':') value

/-- Two's-complement wrap-around of Go's 64-bit `int`. -/
def int64wrap (n : Int) : Int :=
  (n + 2 ^ 63) % 2 ^ 64 - 2 ^ 63

/-- `generateID` (src/unnamed/part_005): `"val-"` followed by the decimal
rendering of a 31-based rolling hash over the value's runes, computed in
Go's overflowing 64-bit `int`. -/
def generateID (value : String) : String :=
  "val-" ++ toString (value.toList.foldl (fun h c => int64wrap (h * 31 + (c.toNat : Int))) 0)

/-- `compareLabels` (src/unnamed/part_005): three-way string comparison,
lower-cased first when `ignoreCase`. -/
def compareLabels (a b : String) (ignoreCase : Bool) : Int :=
  let a := if ignoreCase then goToLower a else a
  let b := if ignoreCase then goToLower b else b
  if a < b then -1
  else if b < a then 1
  else 0

/-! ## Facet values and sorting (src/unnamed/part_005) -/

/-- `CustomFieldValueOption` (src/models.go). -/
structure CustomFieldValueOption where
  ID : String
  Label : String
  Count : Int
deriving DecidableEq, Repr, Inhabited

/-- The swap test of the double loop inside `sortValues`: `true` when the
element currently at the earlier position must be exchanged with the one at
the later position.  `sortBy`/`sortOrder` are already defaulted and
lower-cased here, as in the source. -/
def sortSwapTest (sortBy sortOrder : String) (ignoreCase : Bool)
    (x y : CustomFieldValueOption) : Bool :=
  if sortBy == "count" then
    if sortOrder == "asc" then
      x.Count > y.Count || (x.Count == y.Count && compareLabels x.Label y.Label ignoreCase > 0)
    else
      x.Count < y.Count || (x.Count == y.Count && compareLabels x.Label y.Label ignoreCase > 0)
  else
    let c := compareLabels x.Label y.Label ignoreCase
    if sortOrder == "asc" then
      c > 0 || (c == 0 && x.Count < y.Count)
    else
      c < 0 || (c == 0 && x.Count < y.Count)

/-- One pass of the inner loop of `sortValues` for a fixed outer index `i`:
`cur` is the element currently in slot `i` and `suffix` the elements in
slots `i+1 …`.  Comparing and swapping left to right returns the element
finally left in slot `i` together with the final contents of the suffix
slots. -/
def innerPass (ss : CustomFieldValueOption → CustomFieldValueOption → Bool)
    (cur : CustomFieldValueOption) (suffix : List CustomFieldValueOption) :
    CustomFieldValueOption × List CustomFieldValueOption :=
  match suffix with
  | [] => (cur, [])
  | y :: rest =>
      if ss cur y then
        let r := innerPass ss y rest
        (r.1, cur :: r.2)
      else
        let r := innerPass ss cur rest
        (r.1, y :: r.2)

theorem innerPass_snd_length (ss) (cur) (suffix) :
    (innerPass ss cur suffix).2.length = suffix.length := by
  induction suffix generalizing cur with
  | nil => rfl
  | cons y rest ih =>
      unfold innerPass
      by_cases h : ss cur y = true
      · simp [h, ih]
      · simp [h, ih]

/-- The outer loop of `sortValues`: repeatedly fix the first remaining slot
with `innerPass` and continue on the rewritten suffix. -/
def exchangeSort (ss : CustomFieldValueOption → CustomFieldValueOption → Bool) :
    List CustomFieldValueOption → List CustomFieldValueOption
  | [] => []
  | x :: rest =>
      let r := innerPass ss x rest
      r.1 :: exchangeSort ss r.2
termination_by l => l.length
decreasing_by
  simp [innerPass_snd_length]

/-- `sortValues` (src/unnamed/part_005): default and normalise the sort
parameters, copy the slice, then run the exchange-sort double loop. -/
def sortValues (values : List CustomFieldValueOption)
    (sortBy sortOrder : String) (ignoreCase : Bool) : List CustomFieldValueOption :=
  let sortBy := if sortBy == "" then "count" else sortBy
  let sortOrder :=
    if sortOrder == "" then (if sortBy == "count" then "desc" else "asc") else sortOrder
  let sortBy := goToLower sortBy
  let sortOrder := goToLower sortOrder
  exchangeSort (sortSwapTest sortBy sortOrder ignoreCase) values

/-- `getValueColumnName` (src/unnamed/part_005): map a field's data type to
its physical value column, defaulting to the string column. -/
def getValueColumnName (dataType : String) : String :=
  match dataType with
  | "string" => "value_text"
  | "url" => "value_url"
  | "date" => "value_date"
  | "boolean" => "value_bool"
  | "integer" => "value_int"
  | "float" => "value_float"
  | "monetary" => "value_monetary"
  | "documentlink" => "value_document_ids"
  | "select" => "value_select"
  | "longtext" => "value_long_text"
  | _ => "value_text"

/-! ## Dynamic JSON values (`interface{}` after `json.Unmarshal`) -/

/-- A decoded Go JSON value.  Numbers are modelled as integers: every number
the service manipulates (field ids, rule types) is integral, and Go renders
integral `float64`s without a fractional part. -/
inductive GoVal where
  | vnull
  | vbool (b : Bool)
  | vnum (n : Int)
  | vstr (s : String)
  | varr (elems : List GoVal)
  | vobj (fields : List (String × GoVal))
deriving Inhabited

/-- Go map indexing `m[key]` on a decoded JSON object (keys are unique after
`json.Unmarshal`, so the first match is the binding). -/
def objLookup (fields : List (String × GoVal)) (key : String) : Option GoVal :=
  (fields.find? (fun p => p.1 == key)).map (·.2)

mutual

/-- Go `fmt.Sprintf("%v", x)` on a decoded JSON value. -/
def goValToString : GoVal → String
  | .vnull => "<nil>"
  | .vbool b => if b then "true" else "false"
  | .vnum n => toString n
  | .vstr s => s
  | .varr elems => "[" ++ goValListToString elems ++ "]"
  | .vobj fields => "map[" ++ goObjToString fields ++ "]"

/-- Space-separated rendering of a slice, as in Go's `%v`. -/
def goValListToString : List GoVal → String
  | [] => ""
  | [x] => goValToString x
  | x :: rest => goValToString x ++ " " ++ goValListToString rest

/-- `key:value` rendering of a map, as in Go's `%v` (Go additionally sorts
the keys; decoded order is kept here, the service never prints maps). -/
def goObjToString : List (String × GoVal) → String
  | [] => ""
  | [kv] => kv.1 ++ ":" ++ goValToString kv.2
  | kv :: rest => kv.1 ++ ":" ++ goValToString kv.2 ++ " " ++ goObjToString rest

end

/-! ## Compiled SQL conditions

Each constructor corresponds to exactly one `fmt.Sprintf`/string-literal
site that appends to `conditions` in `buildDocumentFilterQuery` or
`buildCustomFieldConditions` (src/unnamed/part_002); `renderCond` rebuilds
the exact fragment text. -/

inductive Cond where
  | correspondent (idx : Nat)
  | documentType (idx : Nat)
  | hasTagAny (idx : Nat)
  | storagePath (idx : Nat)
  | ownerAny (idx : Nat)
  | createdAfter (idx : Nat)
  | createdBefore (idx : Nat)
  | asn (idx : Nat)
  | isInInbox
  | cfExists (fieldID : Int)
  | cfIsNull (fieldID : Int) (valueColumn : String)
  | cfIn (fieldID : Int) (valueColumn : String) (idxs : List Nat)
  | cfRange (fieldID : Int) (startVal endVal : String)
  | cfGte (fieldID : Int) (val : String)
  | cfLte (fieldID : Int) (val : String)
  | orGroup (subs : List Cond)

/-- A dialect-specific positional placeholder: `$idx` for Postgres, `?`
otherwise. -/
def placeholder (pg : Bool) (idx : Nat) : String :=
  if pg then "$" ++ toString idx else "?"

mutual

/-- Reconstruct the SQL fragment text exactly as the Go source formats it
(`'` is written `\x27`). -/
def renderCond (pg : Bool) : Cond → String
  | .correspondent idx => "d.correspondent_id = " ++ placeholder pg idx
  | .documentType idx => "d.document_type_id = " ++ placeholder pg idx
  | .hasTagAny idx =>
      "EXISTS (SELECT 1 FROM documents_document_tags dt WHERE dt.document_id = d.id AND dt.tag_id = "
        ++ placeholder pg idx ++ ")"
  | .storagePath idx => "d.storage_path_id = " ++ placeholder pg idx
  | .ownerAny idx => "d.owner_id = " ++ placeholder pg idx
  | .createdAfter idx =>
      "d.created >= " ++ placeholder pg idx ++ (if pg then "::date" else "")
  | .createdBefore idx =>
      "d.created <= " ++ placeholder pg idx ++ (if pg then "::date" else "")
  | .asn idx => "d.archive_serial_number = " ++ placeholder pg idx
  | .isInInbox => if pg then "d.is_in_inbox = true" else "d.is_in_inbox = 1"
  | .cfExists fieldID =>
      "EXISTS (SELECT 1 FROM documents_customfieldinstance cfi2 WHERE cfi2.document_id = d.id AND cfi2.field_id = "
        ++ toString fieldID ++ " AND cfi2.deleted_at IS NULL)"
  | .cfIsNull fieldID valueColumn =>
      "NOT EXISTS (SELECT 1 FROM documents_customfieldinstance cfi2 WHERE cfi2.document_id = d.id AND cfi2.field_id = "
        ++ toString fieldID ++ " AND cfi2.deleted_at IS NULL AND cfi2." ++ valueColumn
        ++ " IS NOT NULL AND cfi2." ++ valueColumn ++ " != \x27\x27)"
  | .cfIn fieldID valueColumn idxs =>
      "EXISTS (SELECT 1 FROM documents_customfieldinstance cfi2 WHERE cfi2.document_id = d.id AND cfi2.field_id = "
        ++ toString fieldID ++ " AND cfi2." ++ valueColumn ++ " IN ("
        ++ String.intercalate ", " (idxs.map (placeholder pg)) ++ ") AND cfi2.deleted_at IS NULL)"
  | .cfRange fieldID startVal endVal =>
      "EXISTS (SELECT 1 FROM documents_customfieldinstance cfi2 WHERE cfi2.document_id = d.id AND cfi2.field_id = "
        ++ toString fieldID ++ " AND cfi2.value_date >= \x27" ++ startVal
        ++ (if pg then "\x27::date" else "\x27") ++ " AND cfi2.value_date <= \x27" ++ endVal
        ++ (if pg then "\x27::date" else "\x27") ++ " AND cfi2.deleted_at IS NULL)"
  | .cfGte fieldID val =>
      "EXISTS (SELECT 1 FROM documents_customfieldinstance cfi2 WHERE cfi2.document_id = d.id AND cfi2.field_id = "
        ++ toString fieldID ++ " AND cfi2.value_date >= \x27" ++ val
        ++ (if pg then "\x27::date" else "\x27") ++ " AND cfi2.deleted_at IS NULL)"
  | .cfLte fieldID val =>
      "EXISTS (SELECT 1 FROM documents_customfieldinstance cfi2 WHERE cfi2.document_id = d.id AND cfi2.field_id = "
        ++ toString fieldID ++ " AND cfi2.value_date <= \x27" ++ val
        ++ (if pg then "\x27::date" else "\x27") ++ " AND cfi2.deleted_at IS NULL)"
  | .orGroup subs => "(" ++ renderOrList pg subs ++ ")"

/-- The `" OR "`-joined, individually parenthesised members of an OR group,
matching the `orConditions` assembly of the source. -/
def renderOrList (pg : Bool) : List Cond → String
  | [] => ""
  | [c] => "(" ++ renderCond pg c ++ ")"
  | c :: rest => "(" ++ renderCond pg c ++ ")" ++ " OR " ++ renderOrList pg rest

end

mutual

/-- The parameter-placeholder indices occurring in a fragment, in textual
order. -/
def condPlaceholders : Cond → List Nat
  | .correspondent idx | .documentType idx | .hasTagAny idx | .storagePath idx
  | .ownerAny idx | .createdAfter idx | .createdBefore idx | .asn idx => [idx]
  | .isInInbox => []
  | .cfExists _ | .cfIsNull _ _ | .cfRange _ _ _ | .cfGte _ _ | .cfLte _ _ => []
  | .cfIn _ _ idxs => idxs
  | .orGroup subs => condListPlaceholders subs

/-- `condPlaceholders` over a list of fragments. -/
def condListPlaceholders : List Cond → List Nat
  | [] => []
  | c :: rest => condPlaceholders c ++ condListPlaceholders rest

end

mutual

/-- The custom-field ids a fragment refers to (`cfi2.field_id = …`). -/
def condFieldIDs : Cond → List Int
  | .correspondent _ | .documentType _ | .hasTagAny _ | .storagePath _
  | .ownerAny _ | .createdAfter _ | .createdBefore _ | .asn _ | .isInInbox => []
  | .cfExists fieldID | .cfIsNull fieldID _ | .cfIn fieldID _ _
  | .cfRange fieldID _ _ | .cfGte fieldID _ | .cfLte fieldID _ => [fieldID]
  | .orGroup subs => condListFieldIDs subs

/-- `condFieldIDs` over a list of fragments. -/
def condListFieldIDs : List Cond → List Int
  | [] => []
  | c :: rest => condFieldIDs c ++ condListFieldIDs rest

end

mutual

/-- Whether a fragment was derived from a builtin filter rule of the given
rule type (1 correspondent, 2 document type, 3 tags-any, 4 storage path,
5 owner, 6 created-after, 7 created-before, 8 asn, 9 inbox). -/
def condIsRuleType (t : Int) : Cond → Bool
  | .correspondent _ => t == 1
  | .documentType _ => t == 2
  | .hasTagAny _ => t == 3
  | .storagePath _ => t == 4
  | .ownerAny _ => t == 5
  | .createdAfter _ => t == 6
  | .createdBefore _ => t == 7
  | .asn _ => t == 8
  | .isInInbox => t == 9
  | .cfExists _ | .cfIsNull _ _ | .cfIn _ _ _
  | .cfRange _ _ _ | .cfGte _ _ | .cfLte _ _ => false
  | .orGroup subs => condListHasRuleType t subs

/-- `condIsRuleType` anywhere in a list of fragments. -/
def condListHasRuleType (t : Int) : List Cond → Bool
  | [] => false
  | c :: rest => condIsRuleType t c || condListHasRuleType t rest

end

/-! ## Field metadata environment -/

/-- One row of `documents_customfield` as the service reads it: `name`,
`data_type` and the decoded `extra_data` JSON (`none` models a NULL/empty or
undecodable `extra_data`). -/
structure FieldMeta where
  name : String
  dataType : String
  extraData : Option GoVal
deriving Inhabited

/-- The `documents_customfield` table: `none` when the id has no row, which
is what makes the metadata lookups of the source fail. -/
def FieldDB := Int → Option FieldMeta

/-- Go map assignment `m[k] = v` on a string-keyed map modelled as an
association list: overwrite the binding in place or append a new one. -/
def mapPut (m : List (String × String)) (k v : String) : List (String × String) :=
  if m.any (·.1 == k) then m.map (fun p => if p.1 == k then (k, v) else p)
  else m ++ [(k, v)]

/-- Go map lookup on the association-list map. -/
def mapGet (m : List (String × String)) (k : String) : Option String :=
  (m.find? (·.1 == k)).map (·.2)

/-- The `labelToOptionIDMap` built in the `in` case of
`buildCustomFieldConditions`: walk `extra_data.select_options` and record
`label ↦ id` for every option with string `id` and `label`. -/
def buildLabelToOptionIDMap (extraData : GoVal) : List (String × String) :=
  match extraData with
  | .vobj fields =>
      match objLookup fields "select_options" with
      | some (.varr selectOptions) =>
          selectOptions.foldl (fun m opt =>
            match opt with
            | .vobj optMap =>
                match objLookup optMap "id", objLookup optMap "label" with
                | some (.vstr optID), some (.vstr optLabel) => mapPut m optLabel optID
                | _, _ => m
            | _ => m) []
      | _ => []
  | _ => []

/-- The `selectOptionMap` built in `GetFieldValues`/`GetValueCounts`: same
walk, but recording `id ↦ label` for label resolution of facets. -/
def buildSelectOptionMap (extraData : GoVal) : List (String × String) :=
  match extraData with
  | .vobj fields =>
      match objLookup fields "select_options" with
      | some (.varr selectOptions) =>
          selectOptions.foldl (fun m opt =>
            match opt with
            | .vobj optMap =>
                match objLookup optMap "id", objLookup optMap "label" with
                | some (.vstr optID), some (.vstr optLabel) => mapPut m optID optLabel
                | _, _ => m
            | _ => m) []
      | _ => []
  | _ => []

/-! ## `buildCustomFieldConditions` (src/unnamed/part_002 lines 473-686) -/

/-- The per-operand loop of the `in` case: render each operand with `%v`,
translate labels through the select-option map when the field is a select
field, and emit one placeholder index and one parameter per operand.
Returns (placeholder indices, parameters, next argIndex). -/
def cfInLoop (labelMap : List (String × String)) (isSelect : Bool)
    (values : List GoVal) (argIndex : Nat) : List Nat × List GoVal × Nat :=
  match values with
  | [] => ([], [], argIndex)
  | v :: rest =>
      let valStr := goValToString v
      let valStr :=
        if isSelect then
          match mapGet labelMap valStr with
          | some optionID => optionID
          | none => valStr
        else valStr
      let r := cfInLoop labelMap isSelect rest (argIndex + 1)
      (argIndex :: r.1, GoVal.vstr valStr :: r.2.1, r.2.2)

/-- The trailing single-query branch of `buildCustomFieldConditions`
(`[fieldId, "operator", value]`).  Not recursive, so it sits outside the
mutual block. -/
def bcfcLeaf (db : FieldDB) (queryArray : List GoVal) (excludeFieldID : Int)
    (argIndex : Nat) : List Cond × List GoVal × Nat :=
  if queryArray.length ≥ 3 then
    match queryArray with
    | .vnum fieldID :: arrRest =>
        -- Skip if this is the field we are querying (self-exclusion).
        if fieldID == excludeFieldID then ([], [], argIndex)
        else
          match arrRest with
          | .vstr operator :: operand :: _ =>
              if operator == "exists" then
                ([Cond.cfExists fieldID], [], argIndex)
              else if operator == "isnull" then
                -- Metadata fetch; on error the source falls back to "string".
                let dataType :=
                  match db fieldID with
                  | some m => m.dataType
                  | none => "string"
                ([Cond.cfIsNull fieldID (getValueColumnName dataType)], [], argIndex)
              else if operator == "in" then
                match operand with
                | .varr values =>
                    if values.length > 0 then
                      -- Metadata fetch; on error the source proceeds with
                      -- dataType = "" and no label mapping.
                      let meta :=
                        match db fieldID with
                        | some m => (m.dataType, m.extraData)
                        | none => ("", none)
                      let labelMap :=
                        match meta.2 with
                        | some ed => if meta.1 == "select" then buildLabelToOptionIDMap ed else []
                        | none => []
                      let valueColumn := getValueColumnName meta.1
                      let r := cfInLoop labelMap (meta.1 == "select") values argIndex
                      ([Cond.cfIn fieldID valueColumn r.1], r.2.1, r.2.2)
                    else ([], [], argIndex)
                | _ => ([], [], argIndex)
              else if operator == "range" then
                match operand with
                | .varr dateRange =>
                    match dateRange with
                    | d0 :: d1 :: _ =>
                        ([Cond.cfRange fieldID (goValToString d0) (goValToString d1)], [], argIndex)
                    | _ => ([], [], argIndex)
                | _ => ([], [], argIndex)
              else if operator == "gte" then
                ([Cond.cfGte fieldID (goValToString operand)], [], argIndex)
              else if operator == "lte" then
                ([Cond.cfLte fieldID (goValToString operand)], [], argIndex)
              else ([], [], argIndex)
          | _ => ([], [], argIndex)
    | _ => ([], [], argIndex)
  else ([], [], argIndex)

mutual

/-- `buildCustomFieldConditions`: recursive descent over the decoded filter
expression.  Returns (conditions, parameters, final argIndex).  One
modelling note: on a one-element `["AND"]`/`["OR"]` array the Go code would
panic indexing `queryArray[1]`; that unreachable-through-the-API case is
modelled as the empty contribution. -/
def buildCustomFieldConditions (db : FieldDB) (query : GoVal) (excludeFieldID : Int)
    (startArgIndex : Nat) (pg : Bool) : List Cond × List GoVal × Nat :=
  match query with
  | .varr (.vstr op :: .varr subQueries :: _) =>
      -- queryArray[0] is a string and queryArray[1] is an array.
      if op == "AND" then
        bcfcAndList db subQueries excludeFieldID startArgIndex pg
      else if op == "OR" then
        let r := bcfcOrList db subQueries excludeFieldID startArgIndex pg
        if r.1.isEmpty then ([], r.2.1, r.2.2)
        else ([Cond.orGroup r.1], r.2.1, r.2.2)
      else
        -- A string other than AND/OR in front: the float64 type assertion
        -- of the leaf branch fails and nothing is emitted.
        ([], [], startArgIndex)
  | .varr (.vstr _ :: _) =>
      -- queryArray[0] is a string but queryArray[1] is not an array (or is
      -- missing): for AND/OR the sub-query assertion fails, otherwise the
      -- leaf branch's float64 assertion fails; nothing is emitted either
      -- way.
      ([], [], startArgIndex)
  | .varr queryArray => bcfcLeaf db queryArray excludeFieldID startArgIndex
  | _ => ([], [], startArgIndex)

/-- The AND loop: compile each sub-query in turn, threading the argIndex and
concatenating conditions and parameters. -/
def bcfcAndList (db : FieldDB) (subQueries : List GoVal) (excludeFieldID : Int)
    (argIndex : Nat) (pg : Bool) : List Cond × List GoVal × Nat :=
  match subQueries with
  | [] => ([], [], argIndex)
  | q :: rest =>
      let r1 := buildCustomFieldConditions db q excludeFieldID argIndex pg
      let r2 := bcfcAndList db rest excludeFieldID r1.2.2 pg
      (r1.1 ++ r2.1, r1.2.1 ++ r2.2.1, r2.2.2)

/-- The OR loop: compile each sub-query; a sub-query contributing no
condition also contributes no parameters and leaves the argIndex untouched,
exactly as in the source. -/
def bcfcOrList (db : FieldDB) (subQueries : List GoVal) (excludeFieldID : Int)
    (argIndex : Nat) (pg : Bool) : List Cond × List GoVal × Nat :=
  match subQueries with
  | [] => ([], [], argIndex)
  | q :: rest =>
      let r1 := buildCustomFieldConditions db q excludeFieldID argIndex pg
      if r1.1.isEmpty then bcfcOrList db rest excludeFieldID argIndex pg
      else
        let r2 := bcfcOrList db rest excludeFieldID r1.2.2 pg
        (r1.1 ++ r2.1, r1.2.1 ++ r2.2.1, r2.2.2)

end

/-! ## `buildDocumentFilterQuery` (src/unnamed/part_002 lines 312-469) -/

/-- The three shapes a `filterRulesJSON` request string can take once the
source has looked at it: the empty string, JSON that fails to unmarshal
into `[]map[string]interface{}`, or the decoded rule objects. -/
inductive FilterRulesInput where
  | emptyStr
  | malformed
  | parsed (rules : List (List (String × GoVal)))

/-- One iteration of the rule loop of `buildDocumentFilterQuery`: dispatch
on `rule_type` (a rule whose `rule_type` or `value` has the wrong dynamic
type is skipped).  `decode` stands for `json.Unmarshal` on the nested
custom-field query of rule type 42, `none` meaning a parse error. -/
def bdfqRule (db : FieldDB) (decode : String → Option GoVal)
    (rule : List (String × GoVal)) (excludeFieldID : Int) (argIndex : Nat)
    (pg : Bool) : List Cond × List GoVal × Nat :=
  match objLookup rule "rule_type" with
  | some (.vnum ruleType) =>
      match objLookup rule "value" with
      | some (.vstr value) =>
          if ruleType == 1 then ([Cond.correspondent argIndex], [.vstr value], argIndex + 1)
          else if ruleType == 2 then ([Cond.documentType argIndex], [.vstr value], argIndex + 1)
          else if ruleType == 3 then ([Cond.hasTagAny argIndex], [.vstr value], argIndex + 1)
          else if ruleType == 4 then ([Cond.storagePath argIndex], [.vstr value], argIndex + 1)
          else if ruleType == 5 then ([Cond.ownerAny argIndex], [.vstr value], argIndex + 1)
          else if ruleType == 6 then ([Cond.createdAfter argIndex], [.vstr value], argIndex + 1)
          else if ruleType == 7 then ([Cond.createdBefore argIndex], [.vstr value], argIndex + 1)
          else if ruleType == 8 then ([Cond.asn argIndex], [.vstr value], argIndex + 1)
          else if ruleType == 9 then ([Cond.isInInbox], [], argIndex)
          else if ruleType == 42 then
            match decode value with
            | some customFieldQuery =>
                let r := buildCustomFieldConditions db customFieldQuery excludeFieldID argIndex pg
                if r.1.isEmpty then ([], [], argIndex)
                else (r.1, r.2.1, r.2.2)
            | none => ([], [], argIndex)
          else ([], [], argIndex)
      | _ => ([], [], argIndex)
  | _ => ([], [], argIndex)

/-- The rule loop of `buildDocumentFilterQuery`, threading the argIndex. -/
def bdfqLoop (db : FieldDB) (decode : String → Option GoVal)
    (rules : List (List (String × GoVal))) (excludeFieldID : Int)
    (argIndex : Nat) (pg : Bool) : List Cond × List GoVal × Nat :=
  match rules with
  | [] => ([], [], argIndex)
  | rule :: rest =>
      let r1 := bdfqRule db decode rule excludeFieldID argIndex pg
      let r2 := bdfqLoop db decode rest excludeFieldID r1.2.2 pg
      (r1.1 ++ r2.1, r1.2.1 ++ r2.2.1, r2.2.2)

/-- `buildDocumentFilterQuery` (the two-argument version of
src/unnamed/part_002): compile a filter-rule list, starting the parameter
index at 1.  The third component is `true` exactly when the source returns
its parse error. -/
def buildDocumentFilterQuery (db : FieldDB) (decode : String → Option GoVal)
    (input : FilterRulesInput) (excludeFieldID : Int) (pg : Bool) :
    List Cond × List GoVal × Bool :=
  match input with
  | .emptyStr => ([], [], false)
  | .malformed => ([], [], true)
  | .parsed rules =>
      let r := bdfqLoop db decode rules excludeFieldID 1 pg
      (r.1, r.2.1, false)

/-- The textual `WHERE` clause the source assembles from the conditions
(empty when there are none). -/
def whereClauseOf (pg : Bool) (conds : List Cond) : String :=
  if conds.isEmpty then ""
  else "WHERE " ++ String.intercalate " AND " (conds.map (renderCond pg))

/-- String-level view of `buildDocumentFilterQuery`, returning exactly the
(whereClause, args, error) triple of the source. -/
def buildDocumentFilterQueryStr (db : FieldDB) (decode : String → Option GoVal)
    (input : FilterRulesInput) (excludeFieldID : Int) (pg : Bool) :
    String × List GoVal × Bool :=
  let r := buildDocumentFilterQuery db decode input excludeFieldID pg
  (whereClauseOf pg r.1, if r.1.isEmpty then [] else r.2.1, r.2.2)

/-! ## The three-argument `buildDocumentFilterQuery` used by
`GetBuiltinFilterValues` (src/service.go line 99) -/

/-- Modelled from the spec: the rule loop of the three-argument
`buildDocumentFilterQuery` variant called by `GetBuiltinFilterValues`.  That
variant is not among the source files; per §4.5 of the specification it is
the same compilation "excluding the builtin rule-type corresponding to
`filterType` itself", so the loop skips every rule whose `rule_type` equals
`excludeRuleType` and otherwise behaves as `bdfqLoop`.  `ruleHasType` is
that exclusion test: whether the rule's `rule_type` is the given number. -/
def ruleHasType (rule : List (String × GoVal)) (t : Int) : Bool :=
  match objLookup rule "rule_type" with
  | some (.vnum ruleType) => ruleType == t
  | _ => false

/-- Modelled from the spec: the excluding rule loop; see `ruleHasType`
above. -/
def bdfqLoopEx (db : FieldDB) (decode : String → Option GoVal)
    (rules : List (List (String × GoVal))) (excludeFieldID excludeRuleType : Int)
    (argIndex : Nat) (pg : Bool) : List Cond × List GoVal × Nat :=
  match rules with
  | [] => ([], [], argIndex)
  | rule :: rest =>
      if ruleHasType rule excludeRuleType then
        bdfqLoopEx db decode rest excludeFieldID excludeRuleType argIndex pg
      else
        let r1 := bdfqRule db decode rule excludeFieldID argIndex pg
        let r2 := bdfqLoopEx db decode rest excludeFieldID excludeRuleType r1.2.2 pg
        (r1.1 ++ r2.1, r1.2.1 ++ r2.2.1, r2.2.2)

/-- Modelled from the spec: the three-argument `buildDocumentFilterQuery`
(filter rules, excludeFieldID, excludeRuleType); see `bdfqLoopEx`.  Parse
handling is that of the two-argument version in src/unnamed/part_002. -/
def buildDocumentFilterQueryEx (db : FieldDB) (decode : String → Option GoVal)
    (input : FilterRulesInput) (excludeFieldID excludeRuleType : Int) (pg : Bool) :
    List Cond × List GoVal × Bool :=
  match input with
  | .emptyStr => ([], [], false)
  | .malformed => ([], [], true)
  | .parsed rules =>
      let r := bdfqLoopEx db decode rules excludeFieldID excludeRuleType 1 pg
      (r.1, r.2.1, false)

/-- Modelled from the spec: string-level view of the three-argument
variant, mirroring `buildDocumentFilterQueryStr`. -/
def buildDocumentFilterQueryExStr (db : FieldDB) (decode : String → Option GoVal)
    (input : FilterRulesInput) (excludeFieldID excludeRuleType : Int) (pg : Bool) :
    String × List GoVal × Bool :=
  let r := buildDocumentFilterQueryEx db decode input excludeFieldID excludeRuleType pg
  (whereClauseOf pg r.1, if r.1.isEmpty then [] else r.2.1, r.2.2)

/-! ## Database abstraction -/

/-- The read-only database as the service observes it.  Every access
succeeds and returns what the record holds (genuine connectivity failures
are outside the properties studied here): `fieldMeta` answers the
`documents_customfield` lookups, `fetchRows` the (value, document_id) data
queries, `fetchCount` the single-integer `COUNT` queries, and
`fetchBuiltinRows` the (id, label, count) builtin facet queries — each keyed
by the exact SQL text and arguments issued. -/
structure DBState where
  fieldMeta : FieldDB
  fetchRows : String → List GoVal → List (String × Int)
  fetchCount : String → List GoVal → Option Int
  fetchBuiltinRows : String → List GoVal → List (GoVal × String × Int)

/-- The error cases of the service functions modelled here, one constructor
per `fmt.Errorf` return site reachable in the model. -/
inductive SvcError where
  | fieldNotFound (fieldID : Int)
  | fieldInfoFailed
  | filterQueryBuildFailed
  | unsupportedFilterType (filterType : String)
deriving DecidableEq, Repr

/-! ## Value aggregation (the row loops of `GetFieldValues` and
`GetValueCounts`, src/unnamed/part_002 lines 149-202 and 830-875) -/

/-- The atomic values one raw row value contributes: split with
`parseValueList`, trim each part, drop empties — the body of the inner
`for _, part := range parts` loop. -/
def rowParts (value : String) : List String :=
  ((parseValueList value).map trimSpace).filter (· ≠ "")

/-- `valueDocumentMap[part][documentID] = true`: record a document id in
the per-value document set.  Go map iteration order is unspecified, so the
map is canonicalised as an insertion-ordered association list of
insertion-ordered id lists; only the multiset of (value, set) pairs is
observable through the sorted output. -/
def addDocToValue (m : List (String × List Int)) (part : String) (documentID : Int) :
    List (String × List Int) :=
  if m.any (·.1 == part) then
    m.map (fun p =>
      if p.1 == part then (p.1, if documentID ∈ p.2 then p.2 else p.2 ++ [documentID]) else p)
  else m ++ [(part, [documentID])]

/-- The full row loop: fold every fetched (value, document_id) row's parts
into the value → document-set map. -/
def aggregateRows (rows : List (String × Int)) : List (String × List Int) :=
  rows.foldl (fun m row => (rowParts row.1).foldl (fun m part => addDocToValue m part row.2) m) []

/-- Conversion of one map entry to a `CustomFieldValueOption`: select fields
use the raw value as id and resolve the label through the option map (falling
back to the raw value); other fields use the hash id and the raw value as
label.  The count is the document-set size. -/
def facetOfEntry (dataType : String) (selectOptionMap : List (String × String))
    (value : String) (docCount : Int) : CustomFieldValueOption :=
  if dataType == "select" then
    { ID := value
      Label :=
        match mapGet selectOptionMap value with
        | some mappedLabel => mappedLabel
        | none => value
      Count := docCount }
  else
    { ID := generateID value, Label := value, Count := docCount }

/-- The map-to-slice conversion loop of the aggregation. -/
def facetsOfMap (dataType : String) (selectOptionMap : List (String × String))
    (m : List (String × List Int)) : List CustomFieldValueOption :=
  m.map (fun e => facetOfEntry dataType selectOptionMap e.1 (e.2.length : Int))

/-! ## `GetFieldValues` (src/unnamed/part_002 lines 14-280) -/

/-- `CustomFieldValuesResponse` (src/models.go). -/
structure CustomFieldValuesResponse where
  FieldID : Int
  FieldName : String
  Values : List CustomFieldValueOption
  TotalDocuments : Int
deriving Repr

/-- The synthetic blank facet appended when the blank count is positive. -/
def blankFacetOf (blankCount : Int) : CustomFieldValueOption :=
  { ID := "__blank__", Label := "(Blank)", Count := blankCount }

/-- The blank-bucket step shared by `GetFieldValues` and `GetValueCounts`:
if the `COUNT` query succeeded and is positive, append the synthetic blank
option; a failed scan (`none`) is tolerated and appends nothing. -/
def appendBlank (values : List CustomFieldValueOption) (res : Option Int) :
    List CustomFieldValueOption :=
  match res with
  | some blankCount =>
      if blankCount > 0 then values ++ [blankFacetOf blankCount] else values
  | none => values

/-- The main value query of `GetFieldValues` (`'` written `\x27`; the two
dialect branches differ only in the `field_id` placeholder). -/
def gfvQuery (pg : Bool) (valueColumn : String) : String :=
  "\n\t\t\tSELECT \n\t\t\t\t" ++ valueColumn ++ " as value,\n\t\t\t\tdocument_id\n\t\t\tFROM documents_customfieldinstance\n\t\t\tWHERE field_id = "
    ++ (if pg then "$1" else "?")
    ++ " \n\t\t\t\tAND deleted_at IS NULL\n\t\t\t\tAND " ++ valueColumn
    ++ " IS NOT NULL\n\t\t\t\tAND " ++ valueColumn ++ " != \x27\x27\n\t\t"

/-- The blank-count query of `GetFieldValues`. -/
def gfvBlankQuery (pg : Bool) (valueColumn : String) : String :=
  "\n\t\t\tSELECT COUNT(DISTINCT d.id)\n\t\t\tFROM documents_document d\n\t\t\tWHERE d.deleted_at IS NULL\n\t\t\tAND NOT EXISTS (\n\t\t\t\tSELECT 1 FROM documents_customfieldinstance cfi3\n\t\t\t\tWHERE cfi3.document_id = d.id\n\t\t\t\tAND cfi3.field_id = "
    ++ (if pg then "$1" else "?")
    ++ "\n\t\t\t\tAND cfi3.deleted_at IS NULL\n\t\t\t\tAND cfi3." ++ valueColumn
    ++ " IS NOT NULL\n\t\t\t\tAND cfi3." ++ valueColumn ++ " != \x27\x27\n\t\t\t)\n\t\t"

/-- The dataset-wide document count query (identical for all engines). -/
def totalDocsQuery : String :=
  "SELECT COUNT(DISTINCT id) FROM documents_document WHERE deleted_at IS NULL"

/-- `GetFieldValues`: field metadata (name, data_type, extra_data — three
`QueryRow`s against the same `documents_customfield` row, all answered by
`fieldMeta`), unfiltered value query, aggregation, blank bucket, sort, and
the dataset-wide total (a failed total scan degrades to 0). -/
def GetFieldValues (s : DBState) (fieldID : Int) (sortBy sortOrder : String)
    (ignoreCase pg : Bool) : Except SvcError CustomFieldValuesResponse :=
  match s.fieldMeta fieldID with
  | none => .error (.fieldNotFound fieldID)
  | some meta =>
      let dataType := meta.dataType
      let selectOptionMap :=
        match meta.extraData with
        | some ed => if dataType == "select" then buildSelectOptionMap ed else []
        | none => []
      let valueColumn := getValueColumnName dataType
      let rows := s.fetchRows (gfvQuery pg valueColumn) [.vnum fieldID]
      let values := facetsOfMap dataType selectOptionMap (aggregateRows rows)
      let values := appendBlank values (s.fetchCount (gfvBlankQuery pg valueColumn) [.vnum fieldID])
      let values := sortValues values sortBy sortOrder ignoreCase
      let totalDocuments := (s.fetchCount totalDocsQuery []).getD 0
      .ok { FieldID := fieldID, FieldName := meta.name
            Values := values, TotalDocuments := totalDocuments }

/-! ## `GetValueCounts` (src/unnamed/part_002 lines 688-985) -/

/-- The document filter as `GetValueCounts` uses it: on a parse error fall
back to the unfiltered query (empty clause, no arguments). -/
def gvcDocFilter (s : DBState) (decode : String → Option GoVal)
    (input : FilterRulesInput) (fieldID : Int) (pg : Bool) : String × List GoVal :=
  let f := buildDocumentFilterQueryStr s.fieldMeta decode input fieldID pg
  if f.2.2 then ("", []) else (f.1, f.2.1)

/-- The filtered main query of `GetValueCounts` (`%s` = docFilterWhere,
field id spliced as `$len(docFilterArgs)+1` on postgres). -/
def gvcFilteredQuery (pg : Bool) (valueColumn docFilterWhere : String)
    (numFilterArgs : Nat) : String :=
  "\n\t\t\t\tSELECT \n\t\t\t\t\tcfi." ++ valueColumn
    ++ " as value,\n\t\t\t\t\tcfi.document_id\n\t\t\t\tFROM documents_customfieldinstance cfi\n\t\t\t\tINNER JOIN documents_document d ON cfi.document_id = d.id\n\t\t\t\t"
    ++ docFilterWhere ++ "\n\t\t\t\tAND cfi.field_id = "
    ++ (if pg then "$" ++ toString (numFilterArgs + 1) else "?")
    ++ "\n\t\t\t\tAND cfi.deleted_at IS NULL\n\t\t\t\tAND cfi." ++ valueColumn
    ++ " IS NOT NULL\n\t\t\t\tAND cfi." ++ valueColumn
    ++ " != \x27\x27\n\t\t\t\tAND d.deleted_at IS NULL\n\t\t\t"

/-- The unfiltered main query of `GetValueCounts`. -/
def gvcSimpleQuery (pg : Bool) (valueColumn : String) : String :=
  "\n\t\t\t\tSELECT \n\t\t\t\t\t" ++ valueColumn
    ++ " as value,\n\t\t\t\t\tdocument_id\n\t\t\t\tFROM documents_customfieldinstance\n\t\t\t\tWHERE field_id = "
    ++ (if pg then "$1" else "?")
    ++ " \n\t\t\t\tAND deleted_at IS NULL\n\t\t\t\tAND " ++ valueColumn
    ++ " IS NOT NULL\n\t\t\t\tAND " ++ valueColumn ++ " != \x27\x27\n\t\t\t"

/-- The main query and arguments `GetValueCounts` executes. -/
def gvcQueryArgs (s : DBState) (decode : String → Option GoVal)
    (input : FilterRulesInput) (fieldID : Int) (pg : Bool) (valueColumn : String) :
    String × List GoVal :=
  let df := gvcDocFilter s decode input fieldID pg
  if df.1 ≠ "" then
    (gvcFilteredQuery pg valueColumn df.1 df.2.length, df.2 ++ [.vnum fieldID])
  else
    (gvcSimpleQuery pg valueColumn, [.vnum fieldID])

/-- The (value, document_id) rows `GetValueCounts` aggregates. -/
def gvcRows (s : DBState) (decode : String → Option GoVal)
    (input : FilterRulesInput) (fieldID : Int) (pg : Bool) (valueColumn : String) :
    List (String × Int) :=
  let qa := gvcQueryArgs s decode input fieldID pg valueColumn
  s.fetchRows qa.1 qa.2

/-- The filtered blank-count query of `GetValueCounts`. -/
def gvcBlankFilteredQuery (pg : Bool) (valueColumn docFilterWhere : String)
    (numFilterArgs : Nat) : String :=
  "\n\t\t\t\tSELECT COUNT(DISTINCT d.id)\n\t\t\t\tFROM documents_document d\n\t\t\t\t"
    ++ docFilterWhere
    ++ "\n\t\t\t\tAND d.deleted_at IS NULL\n\t\t\t\tAND NOT EXISTS (\n\t\t\t\t\tSELECT 1 FROM documents_customfieldinstance cfi3\n\t\t\t\t\tWHERE cfi3.document_id = d.id\n\t\t\t\t\tAND cfi3.field_id = "
    ++ (if pg then "$" ++ toString (numFilterArgs + 1) else "?")
    ++ "\n\t\t\t\t\tAND cfi3.deleted_at IS NULL\n\t\t\t\t\tAND cfi3." ++ valueColumn
    ++ " IS NOT NULL\n\t\t\t\t\tAND cfi3." ++ valueColumn ++ " != \x27\x27\n\t\t\t\t)\n\t\t\t"

/-- The unfiltered blank-count query of `GetValueCounts`. -/
def gvcBlankSimpleQuery (pg : Bool) (valueColumn : String) : String :=
  "\n\t\t\t\tSELECT COUNT(DISTINCT d.id)\n\t\t\t\tFROM documents_document d\n\t\t\t\tWHERE d.deleted_at IS NULL\n\t\t\t\tAND NOT EXISTS (\n\t\t\t\t\tSELECT 1 FROM documents_customfieldinstance cfi3\n\t\t\t\t\tWHERE cfi3.document_id = d.id\n\t\t\t\t\tAND cfi3.field_id = "
    ++ (if pg then "$1" else "?")
    ++ "\n\t\t\t\t\tAND cfi3.deleted_at IS NULL\n\t\t\t\t\tAND cfi3." ++ valueColumn
    ++ " IS NOT NULL\n\t\t\t\t\tAND cfi3." ++ valueColumn ++ " != \x27\x27\n\t\t\t\t)\n\t\t\t"

/-- The blank-count result `GetValueCounts` scans (`none` = scan error,
tolerated). -/
def gvcBlankCount (s : DBState) (decode : String → Option GoVal)
    (input : FilterRulesInput) (fieldID : Int) (pg : Bool) (valueColumn : String) :
    Option Int :=
  let df := gvcDocFilter s decode input fieldID pg
  if df.1 ≠ "" then
    s.fetchCount (gvcBlankFilteredQuery pg valueColumn df.1 df.2.length)
      (df.2 ++ [.vnum fieldID])
  else
    s.fetchCount (gvcBlankSimpleQuery pg valueColumn) [.vnum fieldID]

/-- `GetValueCounts`: metadata (one `QueryRow` for name/data_type/extra_data;
a missing row is the returned "failed to get field info" error), filter
compilation with fail-open fallback, filtered or simple value query,
aggregation, blank bucket, defaulted sort.  (The debug `SELECT COUNT(*)`
issued purely for logging is not modelled: its result is discarded.) -/
def GetValueCounts (s : DBState) (decode : String → Option GoVal) (fieldID : Int)
    (input : FilterRulesInput) (sortBy sortOrder : String) (ignoreCase pg : Bool) :
    Except SvcError (List CustomFieldValueOption) :=
  match s.fieldMeta fieldID with
  | none => .error .fieldInfoFailed
  | some meta =>
      let dataType := meta.dataType
      let selectOptionMap :=
        match meta.extraData with
        | some ed => if dataType == "select" then buildSelectOptionMap ed else []
        | none => []
      let valueColumn := getValueColumnName dataType
      let rows := gvcRows s decode input fieldID pg valueColumn
      let values := facetsOfMap dataType selectOptionMap (aggregateRows rows)
      let values := appendBlank values (gvcBlankCount s decode input fieldID pg valueColumn)
      let sortBy := if sortBy == "" then "count" else sortBy
      let sortOrder := if sortOrder == "" then "desc" else sortOrder
      .ok (sortValues values sortBy sortOrder ignoreCase)

/-! ## `GetBuiltinFilterValues` (src/service.go lines 60-342) -/

/-- `BuiltinFilterValueOption` (src/service.go): `id` is `interface{}` (an
integer for dimension ids, a string for ASN/owner). -/
structure BuiltinFilterValueOption where
  ID : GoVal
  Label : String
  Count : Int

/-- Go `strings.Replace(s, pat, rep, 1)`: replace only the first occurrence
(used to strip the leading `"WHERE "` from the compiled clause). -/
def replaceFirst (s pat rep : String) : String :=
  match s.splitOn pat with
  | [] => s
  | [whole] => whole
  | first :: second :: rest => first ++ rep ++ String.intercalate pat (second :: rest)

/-- The `filterType → excluded builtin rule type` switch of
`GetBuiltinFilterValues` (default 0: nothing is excluded). -/
def excludeRuleTypeFor (filterType : String) : Int :=
  if filterType == "correspondent" then 1
  else if filterType == "document_type" then 2
  else if filterType == "tag" then 3
  else if filterType == "storage_path" then 4
  else if filterType == "owner" then 5
  else if filterType == "asn" then 8
  else 0

/-- Correspondent facet query with a compiled filter (`%s` = the clause with
its leading `WHERE ` stripped). -/
def bqCorrespondentFiltered (whereRest : String) : String :=
  "\n\t\t\t\tSELECT c.id, c.name, COUNT(DISTINCT d.id) as doc_count\n\t\t\t\tFROM documents_correspondent c\n\t\t\t\tINNER JOIN documents_document d ON d.correspondent_id = c.id AND d.deleted_at IS NULL\n\t\t\t\tWHERE "
    ++ whereRest ++ "\n\t\t\t\tGROUP BY c.id, c.name\n\t\t\t\tORDER BY doc_count DESC, c.name ASC\n\t\t\t"

/-- Correspondent facet query without a filter (the postgres and
mysql-family literals of the source are identical). -/
def bqCorrespondentBare : String :=
  "\n\t\t\t\t\tSELECT c.id, c.name, COUNT(DISTINCT d.id) as doc_count\n\t\t\t\t\tFROM documents_correspondent c\n\t\t\t\t\tLEFT JOIN documents_document d ON d.correspondent_id = c.id AND d.deleted_at IS NULL\n\t\t\t\t\tGROUP BY c.id, c.name\n\t\t\t\t\tHAVING COUNT(DISTINCT d.id) > 0\n\t\t\t\t\tORDER BY doc_count DESC, c.name ASC\n\t\t\t\t"

/-- Document-type facet query with a compiled filter. -/
def bqDocumentTypeFiltered (whereRest : String) : String :=
  "\n\t\t\t\tSELECT dt.id, dt.name, COUNT(DISTINCT d.id) as doc_count\n\t\t\t\tFROM documents_documenttype dt\n\t\t\t\tINNER JOIN documents_document d ON d.document_type_id = dt.id AND d.deleted_at IS NULL\n\t\t\t\tWHERE "
    ++ whereRest ++ "\n\t\t\t\tGROUP BY dt.id, dt.name\n\t\t\t\tORDER BY doc_count DESC, dt.name ASC\n\t\t\t"

/-- Document-type facet query without a filter. -/
def bqDocumentTypeBare : String :=
  "\n\t\t\t\t\tSELECT dt.id, dt.name, COUNT(DISTINCT d.id) as doc_count\n\t\t\t\t\tFROM documents_documenttype dt\n\t\t\t\t\tLEFT JOIN documents_document d ON d.document_type_id = dt.id AND d.deleted_at IS NULL\n\t\t\t\t\tGROUP BY dt.id, dt.name\n\t\t\t\t\tHAVING COUNT(DISTINCT d.id) > 0\n\t\t\t\t\tORDER BY doc_count DESC, dt.name ASC\n\t\t\t\t"

/-- Tag facet query with a compiled filter. -/
def bqTagFiltered (whereRest : String) : String :=
  "\n\t\t\t\tSELECT t.id, t.name, COUNT(DISTINCT d.id) as doc_count\n\t\t\t\tFROM documents_tag t\n\t\t\t\tINNER JOIN documents_document_tags dt ON dt.tag_id = t.id\n\t\t\t\tINNER JOIN documents_document d ON d.id = dt.document_id AND d.deleted_at IS NULL\n\t\t\t\tWHERE "
    ++ whereRest ++ "\n\t\t\t\tGROUP BY t.id, t.name\n\t\t\t\tORDER BY doc_count DESC, t.name ASC\n\t\t\t"

/-- Tag facet query without a filter (no HAVING: the inner joins already
exclude tags with no documents). -/
def bqTagBare : String :=
  "\n\t\t\t\t\tSELECT t.id, t.name, COUNT(DISTINCT d.id) as doc_count\n\t\t\t\t\tFROM documents_tag t\n\t\t\t\t\tINNER JOIN documents_document_tags dt ON dt.tag_id = t.id\n\t\t\t\t\tINNER JOIN documents_document d ON d.id = dt.document_id AND d.deleted_at IS NULL\n\t\t\t\t\tGROUP BY t.id, t.name\n\t\t\t\t\tORDER BY doc_count DESC, t.name ASC\n\t\t\t\t"

/-- Storage-path facet query with a compiled filter. -/
def bqStoragePathFiltered (whereRest : String) : String :=
  "\n\t\t\t\tSELECT sp.id, sp.name, COUNT(DISTINCT d.id) as doc_count\n\t\t\t\tFROM documents_storagepath sp\n\t\t\t\tINNER JOIN documents_document d ON d.storage_path_id = sp.id AND d.deleted_at IS NULL\n\t\t\t\tWHERE "
    ++ whereRest ++ "\n\t\t\t\tGROUP BY sp.id, sp.name\n\t\t\t\tORDER BY doc_count DESC, sp.name ASC\n\t\t\t"

/-- Storage-path facet query without a filter. -/
def bqStoragePathBare : String :=
  "\n\t\t\t\t\tSELECT sp.id, sp.name, COUNT(DISTINCT d.id) as doc_count\n\t\t\t\t\tFROM documents_storagepath sp\n\t\t\t\t\tLEFT JOIN documents_document d ON d.storage_path_id = sp.id AND d.deleted_at IS NULL\n\t\t\t\t\tGROUP BY sp.id, sp.name\n\t\t\t\t\tHAVING COUNT(DISTINCT d.id) > 0\n\t\t\t\t\tORDER BY doc_count DESC, sp.name ASC\n\t\t\t\t"

/-- Owner facet query with a compiled filter. -/
def bqOwnerFiltered (whereRest : String) : String :=
  "\n\t\t\t\tSELECT d.owner_id as username, COUNT(DISTINCT d.id) as doc_count\n\t\t\t\tFROM documents_document d\n\t\t\t\tWHERE d.deleted_at IS NULL AND d.owner_id IS NOT NULL AND d.owner_id != \x27\x27 AND "
    ++ whereRest ++ "\n\t\t\t\tGROUP BY d.owner_id\n\t\t\t\tORDER BY doc_count DESC, d.owner_id ASC\n\t\t\t"

/-- Owner facet query without a filter. -/
def bqOwnerBare : String :=
  "\n\t\t\t\t\tSELECT d.owner_id as username, COUNT(DISTINCT d.id) as doc_count\n\t\t\t\t\tFROM documents_document d\n\t\t\t\t\tWHERE d.deleted_at IS NULL AND d.owner_id IS NOT NULL AND d.owner_id != \x27\x27\n\t\t\t\t\tGROUP BY d.owner_id\n\t\t\t\t\tORDER BY doc_count DESC, d.owner_id ASC\n\t\t\t\t"

/-- ASN facet query with a compiled filter. -/
def bqAsnFiltered (whereRest : String) : String :=
  "\n\t\t\t\tSELECT d.archive_serial_number as asn, COUNT(DISTINCT d.id) as doc_count\n\t\t\t\tFROM documents_document d\n\t\t\t\tWHERE d.deleted_at IS NULL AND d.archive_serial_number IS NOT NULL AND "
    ++ whereRest ++ "\n\t\t\t\tGROUP BY d.archive_serial_number\n\t\t\t\tORDER BY doc_count DESC, d.archive_serial_number ASC\n\t\t\t"

/-- ASN facet query without a filter. -/
def bqAsnBare : String :=
  "\n\t\t\t\t\tSELECT d.archive_serial_number as asn, COUNT(DISTINCT d.id) as doc_count\n\t\t\t\t\tFROM documents_document d\n\t\t\t\t\tWHERE d.deleted_at IS NULL AND d.archive_serial_number IS NOT NULL\n\t\t\t\t\tGROUP BY d.archive_serial_number\n\t\t\t\t\tORDER BY doc_count DESC, d.archive_serial_number ASC\n\t\t\t\t"

/-- The query/arguments switch of `GetBuiltinFilterValues`: `none` for an
unsupported filter type. -/
def builtinQueryArgs (filterType docFilterWhere : String) (docFilterArgs : List GoVal) :
    Option (String × List GoVal) :=
  let filtered := docFilterWhere ≠ ""
  let whereRest := replaceFirst docFilterWhere "WHERE " ""
  if filterType == "correspondent" then
    some (if filtered then (bqCorrespondentFiltered whereRest, docFilterArgs)
          else (bqCorrespondentBare, []))
  else if filterType == "document_type" then
    some (if filtered then (bqDocumentTypeFiltered whereRest, docFilterArgs)
          else (bqDocumentTypeBare, []))
  else if filterType == "tag" then
    some (if filtered then (bqTagFiltered whereRest, docFilterArgs)
          else (bqTagBare, []))
  else if filterType == "storage_path" then
    some (if filtered then (bqStoragePathFiltered whereRest, docFilterArgs)
          else (bqStoragePathBare, []))
  else if filterType == "owner" then
    some (if filtered then (bqOwnerFiltered whereRest, docFilterArgs)
          else (bqOwnerBare, []))
  else if filterType == "asn" then
    some (if filtered then (bqAsnFiltered whereRest, docFilterArgs)
          else (bqAsnBare, []))
  else none

/-- `GetBuiltinFilterValues`: compile the filter excluding the builtin rule
type of `filterType` (via the three-argument `buildDocumentFilterQuery`), a
compile error aborts with "failed to build filter query", then run the
dimension-specific count query and package the rows. -/
def GetBuiltinFilterValues (s : DBState) (decode : String → Option GoVal)
    (filterType : String) (input : FilterRulesInput) (pg : Bool) :
    Except SvcError (List BuiltinFilterValueOption) :=
  let excludeRuleType := excludeRuleTypeFor filterType
  let f := buildDocumentFilterQueryExStr s.fieldMeta decode input 0 excludeRuleType pg
  if f.2.2 then .error .filterQueryBuildFailed
  else
    match builtinQueryArgs filterType f.1 f.2.1 with
    | none => .error (.unsupportedFilterType filterType)
    | some qa =>
        let rows := s.fetchBuiltinRows qa.1 qa.2
        .ok (rows.map (fun r => { ID := r.1, Label := r.2.1, Count := r.2.2 }))

/-! ## Sorting lemmas -/

/-- The comparison key of a label: lower-cased iff `ignoreCase`. -/
def keyOf (ignoreCase : Bool) (s : String) : String :=
  if ignoreCase then goToLower s else s

theorem compareLabels_eq_keys (a b : String) (ic : Bool) :
    compareLabels a b ic =
      (if keyOf ic a < keyOf ic b then -1 else if keyOf ic b < keyOf ic a then 1 else 0) := by
  cases ic <;> simp [compareLabels, keyOf]

theorem compareLabels_pos_iff (a b : String) (ic : Bool) :
    compareLabels a b ic > 0 ↔ keyOf ic b < keyOf ic a := by
  rw [compareLabels_eq_keys]
  rcases lt_trichotomy (keyOf ic a) (keyOf ic b) with h | h | h
  · simp [h, asymm h]
  · simp [h, lt_irrefl]
  · simp [h, asymm h]

theorem compareLabels_neg_iff (a b : String) (ic : Bool) :
    compareLabels a b ic < 0 ↔ keyOf ic a < keyOf ic b := by
  rw [compareLabels_eq_keys]
  rcases lt_trichotomy (keyOf ic a) (keyOf ic b) with h | h | h
  · simp [h, asymm h]
  · simp [h, lt_irrefl]
  · simp [h, asymm h]

theorem compareLabels_eq_zero_iff (a b : String) (ic : Bool) :
    compareLabels a b ic = 0 ↔ keyOf ic a = keyOf ic b := by
  rw [compareLabels_eq_keys]
  rcases lt_trichotomy (keyOf ic a) (keyOf ic b) with h | h | h
  · simp [h, asymm h, ne_of_lt h]
  · simp [h, lt_irrefl]
  · simp [h, asymm h, (ne_of_lt h).symm]

theorem sortSwapTest_count_asc_true (ic : Bool) (a b : CustomFieldValueOption) :
    sortSwapTest "count" "asc" ic a b = true ↔
      b.Count < a.Count ∨ (a.Count = b.Count ∧ keyOf ic b.Label < keyOf ic a.Label) := by
  simp [sortSwapTest, ← compareLabels_pos_iff a.Label b.Label ic, gt_iff_lt]

theorem sortSwapTest_count_desc_true (ic : Bool) (a b : CustomFieldValueOption) :
    sortSwapTest "count" "desc" ic a b = true ↔
      a.Count < b.Count ∨ (a.Count = b.Count ∧ keyOf ic b.Label < keyOf ic a.Label) := by
  simp [sortSwapTest, ← compareLabels_pos_iff a.Label b.Label ic, gt_iff_lt]

theorem sortSwapTest_label_asc_true (ic : Bool) (a b : CustomFieldValueOption) :
    sortSwapTest "label" "asc" ic a b = true ↔
      keyOf ic b.Label < keyOf ic a.Label ∨
        (keyOf ic a.Label = keyOf ic b.Label ∧ a.Count < b.Count) := by
  simp [sortSwapTest, ← compareLabels_pos_iff a.Label b.Label ic,
    ← compareLabels_eq_zero_iff a.Label b.Label ic, gt_iff_lt]

theorem sortSwapTest_label_desc_true (ic : Bool) (a b : CustomFieldValueOption) :
    sortSwapTest "label" "desc" ic a b = true ↔
      keyOf ic a.Label < keyOf ic b.Label ∨
        (keyOf ic a.Label = keyOf ic b.Label ∧ a.Count < b.Count) := by
  simp [sortSwapTest, ← compareLabels_neg_iff a.Label b.Label ic,
    ← compareLabels_eq_zero_iff a.Label b.Label ic]

theorem sortSwapTest_count_asc_false (ic : Bool) (a b : CustomFieldValueOption) :
    sortSwapTest "count" "asc" ic a b = false ↔
      a.Count < b.Count ∨ (a.Count = b.Count ∧ keyOf ic a.Label ≤ keyOf ic b.Label) := by
  rw [← Bool.not_eq_true, sortSwapTest_count_asc_true, not_or, not_and]
  constructor
  · rintro ⟨hc, hck⟩
    rcases lt_or_eq_of_le (not_lt.mp hc) with h1 | h1
    · exact Or.inl h1
    · exact Or.inr ⟨h1, not_lt.mp (hck h1)⟩
  · rintro (h | ⟨h1, h2⟩)
    · exact ⟨not_lt.mpr (le_of_lt h), fun he => absurd h (by omega)⟩
    · exact ⟨not_lt.mpr (le_of_eq h1), fun _ => not_lt.mpr h2⟩

theorem sortSwapTest_count_desc_false (ic : Bool) (a b : CustomFieldValueOption) :
    sortSwapTest "count" "desc" ic a b = false ↔
      b.Count < a.Count ∨ (a.Count = b.Count ∧ keyOf ic a.Label ≤ keyOf ic b.Label) := by
  rw [← Bool.not_eq_true, sortSwapTest_count_desc_true, not_or, not_and]
  constructor
  · rintro ⟨hc, hck⟩
    rcases lt_or_eq_of_le (not_lt.mp hc) with h1 | h1
    · exact Or.inl h1
    · exact Or.inr ⟨h1.symm, not_lt.mp (hck h1.symm)⟩
  · rintro (h | ⟨h1, h2⟩)
    · exact ⟨not_lt.mpr (le_of_lt h), fun he => absurd h (by omega)⟩
    · exact ⟨not_lt.mpr (le_of_eq h1.symm), fun _ => not_lt.mpr h2⟩

theorem sortSwapTest_label_asc_false (ic : Bool) (a b : CustomFieldValueOption) :
    sortSwapTest "label" "asc" ic a b = false ↔
      keyOf ic a.Label < keyOf ic b.Label ∨
        (keyOf ic a.Label = keyOf ic b.Label ∧ b.Count ≤ a.Count) := by
  rw [← Bool.not_eq_true, sortSwapTest_label_asc_true, not_or, not_and]
  constructor
  · rintro ⟨hc, hck⟩
    rcases lt_trichotomy (keyOf ic a.Label) (keyOf ic b.Label) with h1 | h1 | h1
    · exact Or.inl h1
    · exact Or.inr ⟨h1, not_lt.mp (hck h1)⟩
    · exact absurd h1 hc
  · rintro (h | ⟨h1, h2⟩)
    · exact ⟨asymm h, fun he => absurd he (ne_of_lt h)⟩
    · exact ⟨fun hlt => absurd hlt (h1 ▸ lt_irrefl _), fun _ => not_lt.mpr h2⟩

theorem sortSwapTest_label_desc_false (ic : Bool) (a b : CustomFieldValueOption) :
    sortSwapTest "label" "desc" ic a b = false ↔
      keyOf ic b.Label < keyOf ic a.Label ∨
        (keyOf ic a.Label = keyOf ic b.Label ∧ b.Count ≤ a.Count) := by
  rw [← Bool.not_eq_true, sortSwapTest_label_desc_true, not_or, not_and]
  constructor
  · rintro ⟨hc, hck⟩
    rcases lt_trichotomy (keyOf ic a.Label) (keyOf ic b.Label) with h1 | h1 | h1
    · exact absurd h1 hc
    · exact Or.inr ⟨h1, not_lt.mp (hck h1)⟩
    · exact Or.inl h1
  · rintro (h | ⟨h1, h2⟩)
    · exact ⟨asymm h, fun he => absurd he (ne_of_gt h)⟩
    · exact ⟨fun hlt => absurd hlt (h1 ▸ lt_irrefl _), fun _ => not_lt.mpr h2⟩

/-- Asymmetry of the swap test at each (sortBy, sortOrder) combination the
ordering claims cover. -/
theorem sortSwapTest_asymm (sortBy sortOrder : String) (ic : Bool)
    (hby : sortBy = "count" ∨ sortBy = "label") (hord : sortOrder = "asc" ∨ sortOrder = "desc")
    (a b : CustomFieldValueOption) (h : sortSwapTest sortBy sortOrder ic a b = true) :
    sortSwapTest sortBy sortOrder ic b a = false := by
  rcases hby with rfl | rfl <;> rcases hord with rfl | rfl
  · rw [sortSwapTest_count_asc_true] at h
    rw [sortSwapTest_count_asc_false]
    rcases h with h | ⟨h1, h2⟩
    · exact Or.inl h
    · exact Or.inr ⟨h1.symm, le_of_lt h2⟩
  · rw [sortSwapTest_count_desc_true] at h
    rw [sortSwapTest_count_desc_false]
    rcases h with h | ⟨h1, h2⟩
    · exact Or.inl h
    · exact Or.inr ⟨h1.symm, le_of_lt h2⟩
  · rw [sortSwapTest_label_asc_true] at h
    rw [sortSwapTest_label_asc_false]
    rcases h with h | ⟨h1, h2⟩
    · exact Or.inl h
    · exact Or.inr ⟨h1.symm, le_of_lt h2⟩
  · rw [sortSwapTest_label_desc_true] at h
    rw [sortSwapTest_label_desc_false]
    rcases h with h | ⟨h1, h2⟩
    · exact Or.inl h
    · exact Or.inr ⟨h1.symm, le_of_lt h2⟩

/-- Transitivity of the swap test at each covered combination. -/
theorem sortSwapTest_trans (sortBy sortOrder : String) (ic : Bool)
    (hby : sortBy = "count" ∨ sortBy = "label") (hord : sortOrder = "asc" ∨ sortOrder = "desc")
    (a b c : CustomFieldValueOption)
    (h1 : sortSwapTest sortBy sortOrder ic a b = true)
    (h2 : sortSwapTest sortBy sortOrder ic b c = true) :
    sortSwapTest sortBy sortOrder ic a c = true := by
  rcases hby with rfl | rfl <;> rcases hord with rfl | rfl
  · rw [sortSwapTest_count_asc_true] at h1 h2 ⊢
    rcases h1 with h1 | ⟨h1a, h1b⟩ <;> rcases h2 with h2 | ⟨h2a, h2b⟩
    · exact Or.inl (by omega)
    · exact Or.inl (by omega)
    · exact Or.inl (by omega)
    · exact Or.inr ⟨by omega, lt_trans h2b h1b⟩
  · rw [sortSwapTest_count_desc_true] at h1 h2 ⊢
    rcases h1 with h1 | ⟨h1a, h1b⟩ <;> rcases h2 with h2 | ⟨h2a, h2b⟩
    · exact Or.inl (by omega)
    · exact Or.inl (by omega)
    · exact Or.inl (by omega)
    · exact Or.inr ⟨by omega, lt_trans h2b h1b⟩
  · rw [sortSwapTest_label_asc_true] at h1 h2 ⊢
    rcases h1 with h1 | ⟨h1a, h1b⟩ <;> rcases h2 with h2 | ⟨h2a, h2b⟩
    · exact Or.inl (lt_trans h2 h1)
    · exact Or.inl (h2a ▸ h1)
    · exact Or.inl (h1a ▸ h2)
    · exact Or.inr ⟨h1a.trans h2a, by omega⟩
  · rw [sortSwapTest_label_desc_true] at h1 h2 ⊢
    rcases h1 with h1 | ⟨h1a, h1b⟩ <;> rcases h2 with h2 | ⟨h2a, h2b⟩
    · exact Or.inl (lt_trans h1 h2)
    · exact Or.inl (h2a ▸ h1)
    · exact Or.inl (h1a ▸ h2)
    · exact Or.inr ⟨h1a.trans h2a, by omega⟩

theorem innerPass_cons_pos (ss) (cur y : CustomFieldValueOption) (rest)
    (h : ss cur y = true) :
    innerPass ss cur (y :: rest) =
      ((innerPass ss y rest).1, cur :: (innerPass ss y rest).2) := by
  simp [innerPass, h]

theorem innerPass_cons_neg (ss) (cur y : CustomFieldValueOption) (rest)
    (h : ss cur y = false) :
    innerPass ss cur (y :: rest) =
      ((innerPass ss cur rest).1, y :: (innerPass ss cur rest).2) := by
  simp [innerPass, h]

theorem innerPass_perm (ss) (cur) (suffix) :
    List.Perm ((innerPass ss cur suffix).1 :: (innerPass ss cur suffix).2) (cur :: suffix) := by
  induction suffix generalizing cur with
  | nil => simp [innerPass]
  | cons y rest ih =>
      by_cases h : ss cur y = true
      · rw [innerPass_cons_pos ss cur y rest h]
        exact (List.Perm.swap cur (innerPass ss y rest).1 (innerPass ss y rest).2).trans
          ((ih y).cons cur)
      · rw [innerPass_cons_neg ss cur y rest (by simpa using h)]
        exact (List.Perm.swap y (innerPass ss cur rest).1 (innerPass ss cur rest).2).trans
          (((ih cur).cons y).trans (List.Perm.swap cur y rest))

/-- The element left in the fixed slot after one inner pass is the original
element or one that must be ordered before it, and no element left in the
suffix slots must be swapped ahead of it. -/
theorem innerPass_min (ss : CustomFieldValueOption → CustomFieldValueOption → Bool)
    (hasym : ∀ a b, ss a b = true → ss b a = false)
    (htrans : ∀ a b c, ss a b = true → ss b c = true → ss a c = true)
    (suffix : List CustomFieldValueOption) (cur : CustomFieldValueOption) :
    ((innerPass ss cur suffix).1 = cur ∨ ss cur (innerPass ss cur suffix).1 = true) ∧
      ∀ y ∈ (innerPass ss cur suffix).2, ss (innerPass ss cur suffix).1 y = false := by
  induction suffix generalizing cur with
  | nil => simp [innerPass]
  | cons y rest ih =>
      by_cases h : ss cur y = true
      · rw [innerPass_cons_pos ss cur y rest h]
        dsimp only
        obtain ⟨ih1, ih2⟩ := ih y
        refine ⟨?_, ?_⟩
        · rcases ih1 with he | hlt
          · right
            rw [he]
            exact h
          · exact Or.inr (htrans _ _ _ h hlt)
        · intro z hz
          rcases List.mem_cons.mp hz with rfl | hz
          · rcases ih1 with he | hlt
            · rw [he]
              exact hasym _ _ h
            · by_contra hcon
              rw [Bool.not_eq_false] at hcon
              have hyz := htrans _ _ _ hlt hcon
              rw [hasym _ _ h] at hyz
              exact Bool.false_ne_true hyz
          · exact ih2 z hz
      · have hf : ss cur y = false := by simpa using h
        rw [innerPass_cons_neg ss cur y rest hf]
        dsimp only
        obtain ⟨ih1, ih2⟩ := ih cur
        refine ⟨ih1, ?_⟩
        intro z hz
        rcases List.mem_cons.mp hz with rfl | hz
        · rcases ih1 with he | hlt
          · rw [he]
            exact hf
          · by_contra hcon
            rw [Bool.not_eq_false] at hcon
            have hcz := htrans _ _ _ hlt hcon
            rw [hf] at hcz
            exact Bool.false_ne_true hcz
        · exact ih2 z hz

theorem exchangeSort_nil (ss) : exchangeSort ss [] = [] := by
  rw [exchangeSort]

theorem exchangeSort_cons (ss) (x : CustomFieldValueOption) (rest) :
    exchangeSort ss (x :: rest) =
      (innerPass ss x rest).1 :: exchangeSort ss (innerPass ss x rest).2 := by
  rw [exchangeSort]

theorem exchangeSort_perm (ss) (l : List CustomFieldValueOption) :
    List.Perm (exchangeSort ss l) l := by
  have H : ∀ (n : Nat) (l : List CustomFieldValueOption), l.length = n →
      List.Perm (exchangeSort ss l) l := by
    intro n
    induction n using Nat.strong_induction_on with
    | _ n ih =>
        intro l hn
        match l, hn with
        | [], _ => rw [exchangeSort_nil]
        | x :: rest, hn =>
            rw [exchangeSort_cons]
            have hlen : (innerPass ss x rest).2.length < n := by
              rw [innerPass_snd_length]
              simp only [List.length_cons] at hn
              omega
            have h1 := ih _ hlen (innerPass ss x rest).2 rfl
            exact (h1.cons (innerPass ss x rest).1).trans (innerPass_perm ss x rest)
  exact H l.length l rfl

theorem exchangeSort_pairwise (ss : CustomFieldValueOption → CustomFieldValueOption → Bool)
    (hasym : ∀ a b, ss a b = true → ss b a = false)
    (htrans : ∀ a b c, ss a b = true → ss b c = true → ss a c = true)
    (l : List CustomFieldValueOption) :
    List.Pairwise (fun x y => ss x y = false) (exchangeSort ss l) := by
  have H : ∀ (n : Nat) (l : List CustomFieldValueOption), l.length = n →
      List.Pairwise (fun x y => ss x y = false) (exchangeSort ss l) := by
    intro n
    induction n using Nat.strong_induction_on with
    | _ n ih =>
        intro l hn
        match l, hn with
        | [], _ => rw [exchangeSort_nil]; exact List.Pairwise.nil
        | x :: rest, hn =>
            rw [exchangeSort_cons]
            have hlen : (innerPass ss x rest).2.length < n := by
              rw [innerPass_snd_length]
              simp only [List.length_cons] at hn
              omega
            refine List.Pairwise.cons ?_ (ih _ hlen (innerPass ss x rest).2 rfl)
            intro y hy
            have hy2 : y ∈ (innerPass ss x rest).2 :=
              (exchangeSort_perm ss (innerPass ss x rest).2).mem_iff.mp hy
            exact (innerPass_min ss hasym htrans rest x).2 y hy2
  exact H l.length l rfl

theorem sortValues_perm (values : List CustomFieldValueOption)
    (sortBy sortOrder : String) (ic : Bool) :
    List.Perm (sortValues values sortBy sortOrder ic) values := by
  unfold sortValues
  exact exchangeSort_perm _ values

/-! Per-constructor equations for the `Cond` functions. -/

@[simp] theorem condPlaceholders_correspondent (idx) : condPlaceholders (.correspondent idx) = [idx] := by rw [condPlaceholders]

@[simp] theorem condFieldIDs_correspondent (idx) : condFieldIDs (.correspondent idx) = [] := by rw [condFieldIDs]

@[simp] theorem condIsRuleType_correspondent (t idx) : condIsRuleType t (.correspondent idx) = (t == 1) := by rw [condIsRuleType]

@[simp] theorem condPlaceholders_documentType (idx) : condPlaceholders (.documentType idx) = [idx] := by rw [condPlaceholders]

@[simp] theorem condFieldIDs_documentType (idx) : condFieldIDs (.documentType idx) = [] := by rw [condFieldIDs]

@[simp] theorem condIsRuleType_documentType (t idx) : condIsRuleType t (.documentType idx) = (t == 2) := by rw [condIsRuleType]

@[simp] theorem condPlaceholders_hasTagAny (idx) : condPlaceholders (.hasTagAny idx) = [idx] := by rw [condPlaceholders]

@[simp] theorem condFieldIDs_hasTagAny (idx) : condFieldIDs (.hasTagAny idx) = [] := by rw [condFieldIDs]

@[simp] theorem condIsRuleType_hasTagAny (t idx) : condIsRuleType t (.hasTagAny idx) = (t == 3) := by rw [condIsRuleType]

@[simp] theorem condPlaceholders_storagePath (idx) : condPlaceholders (.storagePath idx) = [idx] := by rw [condPlaceholders]

@[simp] theorem condFieldIDs_storagePath (idx) : condFieldIDs (.storagePath idx) = [] := by rw [condFieldIDs]

@[simp] theorem condIsRuleType_storagePath (t idx) : condIsRuleType t (.storagePath idx) = (t == 4) := by rw [condIsRuleType]

@[simp] theorem condPlaceholders_ownerAny (idx) : condPlaceholders (.ownerAny idx) = [idx] := by rw [condPlaceholders]

@[simp] theorem condFieldIDs_ownerAny (idx) : condFieldIDs (.ownerAny idx) = [] := by rw [condFieldIDs]

@[simp] theorem condIsRuleType_ownerAny (t idx) : condIsRuleType t (.ownerAny idx) = (t == 5) := by rw [condIsRuleType]

@[simp] theorem condPlaceholders_createdAfter (idx) : condPlaceholders (.createdAfter idx) = [idx] := by rw [condPlaceholders]

@[simp] theorem condFieldIDs_createdAfter (idx) : condFieldIDs (.createdAfter idx) = [] := by rw [condFieldIDs]

@[simp] theorem condIsRuleType_createdAfter (t idx) : condIsRuleType t (.createdAfter idx) = (t == 6) := by rw [condIsRuleType]

@[simp] theorem condPlaceholders_createdBefore (idx) : condPlaceholders (.createdBefore idx) = [idx] := by rw [condPlaceholders]

@[simp] theorem condFieldIDs_createdBefore (idx) : condFieldIDs (.createdBefore idx) = [] := by rw [condFieldIDs]

@[simp] theorem condIsRuleType_createdBefore (t idx) : condIsRuleType t (.createdBefore idx) = (t == 7) := by rw [condIsRuleType]

@[simp] theorem condPlaceholders_asn (idx) : condPlaceholders (.asn idx) = [idx] := by rw [condPlaceholders]

@[simp] theorem condFieldIDs_asn (idx) : condFieldIDs (.asn idx) = [] := by rw [condFieldIDs]

@[simp] theorem condIsRuleType_asn (t idx) : condIsRuleType t (.asn idx) = (t == 8) := by rw [condIsRuleType]

@[simp] theorem condPlaceholders_isInInbox : condPlaceholders .isInInbox = [] := by rw [condPlaceholders]

@[simp] theorem condFieldIDs_isInInbox : condFieldIDs .isInInbox = [] := by rw [condFieldIDs]

@[simp] theorem condIsRuleType_isInInbox (t) : condIsRuleType t .isInInbox = (t == 9) := by rw [condIsRuleType]

@[simp] theorem condPlaceholders_cfExists (f) : condPlaceholders (.cfExists f) = [] := by rw [condPlaceholders]

@[simp] theorem condFieldIDs_cfExists (f) : condFieldIDs (.cfExists f) = [f] := by rw [condFieldIDs]

@[simp] theorem condIsRuleType_cfExists (t) (f) : condIsRuleType t (.cfExists f) = false := by rw [condIsRuleType]

@[simp] theorem condPlaceholders_cfIsNull (f col) : condPlaceholders (.cfIsNull f col) = [] := by rw [condPlaceholders]

@[simp] theorem condFieldIDs_cfIsNull (f col) : condFieldIDs (.cfIsNull f col) = [f] := by rw [condFieldIDs]

@[simp] theorem condIsRuleType_cfIsNull (t) (f col) : condIsRuleType t (.cfIsNull f col) = false := by rw [condIsRuleType]

@[simp] theorem condPlaceholders_cfRange (f a b) : condPlaceholders (.cfRange f a b) = [] := by rw [condPlaceholders]

@[simp] theorem condFieldIDs_cfRange (f a b) : condFieldIDs (.cfRange f a b) = [f] := by rw [condFieldIDs]

@[simp] theorem condIsRuleType_cfRange (t) (f a b) : condIsRuleType t (.cfRange f a b) = false := by rw [condIsRuleType]

@[simp] theorem condPlaceholders_cfGte (f v) : condPlaceholders (.cfGte f v) = [] := by rw [condPlaceholders]

@[simp] theorem condFieldIDs_cfGte (f v) : condFieldIDs (.cfGte f v) = [f] := by rw [condFieldIDs]

@[simp] theorem condIsRuleType_cfGte (t) (f v) : condIsRuleType t (.cfGte f v) = false := by rw [condIsRuleType]

@[simp] theorem condPlaceholders_cfLte (f v) : condPlaceholders (.cfLte f v) = [] := by rw [condPlaceholders]

@[simp] theorem condFieldIDs_cfLte (f v) : condFieldIDs (.cfLte f v) = [f] := by rw [condFieldIDs]

@[simp] theorem condIsRuleType_cfLte (t) (f v) : condIsRuleType t (.cfLte f v) = false := by rw [condIsRuleType]

@[simp] theorem condPlaceholders_cfIn (f col idxs) : condPlaceholders (.cfIn f col idxs) = idxs := by rw [condPlaceholders]

@[simp] theorem condFieldIDs_cfIn (f col idxs) : condFieldIDs (.cfIn f col idxs) = [f] := by rw [condFieldIDs]

@[simp] theorem condIsRuleType_cfIn (t f col idxs) : condIsRuleType t (.cfIn f col idxs) = false := by rw [condIsRuleType]

@[simp] theorem condPlaceholders_orGroup (subs) : condPlaceholders (.orGroup subs) = condListPlaceholders subs := by rw [condPlaceholders]

@[simp] theorem condFieldIDs_orGroup (subs) : condFieldIDs (.orGroup subs) = condListFieldIDs subs := by rw [condFieldIDs]

@[simp] theorem condIsRuleType_orGroup (t subs) : condIsRuleType t (.orGroup subs) = condListHasRuleType t subs := by rw [condIsRuleType]

@[simp] theorem condListPlaceholders_nil : condListPlaceholders [] = [] := by rw [condListPlaceholders]

@[simp] theorem condListPlaceholders_cons (c rest) : condListPlaceholders (c :: rest) = condPlaceholders c ++ condListPlaceholders rest := by rw [condListPlaceholders]

@[simp] theorem condListFieldIDs_nil : condListFieldIDs [] = [] := by rw [condListFieldIDs]

@[simp] theorem condListFieldIDs_cons (c rest) : condListFieldIDs (c :: rest) = condFieldIDs c ++ condListFieldIDs rest := by rw [condListFieldIDs]

@[simp] theorem condListHasRuleType_nil (t) : condListHasRuleType t [] = false := by rw [condListHasRuleType]

@[simp] theorem condListHasRuleType_cons (t c rest) : condListHasRuleType t (c :: rest) = (condIsRuleType t c || condListHasRuleType t rest) := by rw [condListHasRuleType]

/-! ## Compiler invariants -/

/-- The joint invariant of one compilation step started at argIndex `i`:
the final argIndex advances by exactly the number of emitted parameters,
the emitted placeholder indices are exactly `i, i+1, …` in textual order,
no fragment references the excluded field, and no fragment is a builtin
rule condition. -/
def BcfcInv (k : Int) (i : Nat) (r : List Cond × List GoVal × Nat) : Prop :=
  r.2.2 = i + r.2.1.length ∧
  condListPlaceholders r.1 = List.range' i r.2.1.length ∧
  (∀ c ∈ r.1, k ∉ condFieldIDs c) ∧
  (∀ c ∈ r.1, ∀ t, condIsRuleType t c = false)

theorem condListPlaceholders_append (l1 l2 : List Cond) :
    condListPlaceholders (l1 ++ l2) = condListPlaceholders l1 ++ condListPlaceholders l2 := by
  induction l1 with
  | nil => rfl
  | cons c rest ih => simp [condListPlaceholders, ih]

theorem not_mem_condListFieldIDs (k : Int) (l : List Cond)
    (h : ∀ c ∈ l, k ∉ condFieldIDs c) : k ∉ condListFieldIDs l := by
  induction l with
  | nil => simp [condListFieldIDs]
  | cons c rest ih =>
      simp only [condListFieldIDs, List.mem_append, not_or]
      exact ⟨h c (List.mem_cons_self c rest), ih (fun c hc => h c (List.mem_cons_of_mem _ hc))⟩

theorem condListHasRuleType_eq_false (t : Int) (l : List Cond)
    (h : ∀ c ∈ l, condIsRuleType t c = false) : condListHasRuleType t l = false := by
  induction l with
  | nil => rfl
  | cons c rest ih =>
      rw [condListHasRuleType, Bool.or_eq_false_iff]
      exact ⟨h c (List.mem_cons_self c rest), ih (fun c hc => h c (List.mem_cons_of_mem _ hc))⟩

theorem cfInLoop_eq (labelMap : List (String × String)) (isSelect : Bool)
    (values : List GoVal) (i : Nat) :
    cfInLoop labelMap isSelect values i =
      (List.range' i values.length,
       values.map (fun v =>
         GoVal.vstr (if isSelect then
             match mapGet labelMap (goValToString v) with
             | some optionID => optionID
             | none => goValToString v
           else goValToString v)),
       i + values.length) := by
  induction values generalizing i with
  | nil => simp [cfInLoop]
  | cons v rest ih =>
      rw [cfInLoop, ih]
      simp [List.range'_succ]
      omega

theorem BcfcInv_empty (k : Int) (i : Nat) : BcfcInv k i ([], [], i) := by
  refine ⟨by simp, by simp, by simp, by simp⟩

/-- A leaf that emits one parameterless condition not referencing `k`. -/
theorem BcfcInv_single (k : Int) (i : Nat) (c : Cond)
    (hpl : condPlaceholders c = [])
    (hids : k ∉ condFieldIDs c)
    (hbt : ∀ t, condIsRuleType t c = false) :
    BcfcInv k i ([c], [], i) := by
  refine ⟨by simp, by simp [hpl], ?_, ?_⟩
  · intro c' hc'
    rcases List.mem_singleton.mp hc' with rfl
    exact hids
  · intro c' hc' t
    rcases List.mem_singleton.mp hc' with rfl
    exact hbt t

theorem bcfcLeaf_master (db : FieldDB) (arr : List GoVal) (k : Int) (i : Nat) :
    BcfcInv k i (bcfcLeaf db arr k i) := by
  unfold bcfcLeaf
  split
  case isFalse => exact BcfcInv_empty k i
  case isTrue hlen =>
    split
    case h_2 => exact BcfcInv_empty k i
    case h_1 fieldID arrRest =>
      split
      case isTrue => exact BcfcInv_empty k i
      case isFalse hk =>
        have hne : fieldID ≠ k := by simpa using hk
        have hkk : k ∉ ([fieldID] : List Int) := by simpa using Ne.symm hne
        split
        case h_2 => exact BcfcInv_empty k i
        case h_1 operator operand tail =>
          by_cases h1 : (operator == "exists") = true
          case pos =>
            rw [if_pos h1]
            exact BcfcInv_single k i _ (by simp) (by simpa using hkk) (by simp)
          case neg =>
            rw [if_neg h1]
            by_cases h2 : (operator == "isnull") = true
            case pos =>
              rw [if_pos h2]
              exact BcfcInv_single k i _ (by simp) (by simpa using hkk) (by simp)
            case neg =>
              rw [if_neg h2]
              by_cases h3 : (operator == "in") = true
              case pos =>
                rw [if_pos h3]
                cases operand with
                | varr values =>
                    dsimp only
                    split
                    next hv =>
                      rw [cfInLoop_eq]
                      refine ⟨by simp, by simp, ?_, by simp⟩
                      intro c hc
                      rcases List.mem_singleton.mp hc with rfl
                      simpa using hkk
                    next hv => exact BcfcInv_empty k i
                | vnull => exact BcfcInv_empty k i
                | vbool b => exact BcfcInv_empty k i
                | vnum n => exact BcfcInv_empty k i
                | vstr s => exact BcfcInv_empty k i
                | vobj o => exact BcfcInv_empty k i
              case neg =>
                rw [if_neg h3]
                by_cases h4 : (operator == "range") = true
                case pos =>
                  rw [if_pos h4]
                  cases operand with
                  | varr dateRange =>
                      match dateRange with
                      | [] => exact BcfcInv_empty k i
                      | [d0] => exact BcfcInv_empty k i
                      | d0 :: d1 :: drest =>
                          exact BcfcInv_single k i _ (by simp) (by simpa using hkk) (by simp)
                  | vnull => exact BcfcInv_empty k i
                  | vbool b => exact BcfcInv_empty k i
                  | vnum n => exact BcfcInv_empty k i
                  | vstr s => exact BcfcInv_empty k i
                  | vobj o => exact BcfcInv_empty k i
                case neg =>
                  rw [if_neg h4]
                  by_cases h5 : (operator == "gte") = true
                  case pos =>
                    rw [if_pos h5]
                    exact BcfcInv_single k i _ (by simp) (by simpa using hkk) (by simp)
                  case neg =>
                    rw [if_neg h5]
                    by_cases h6 : (operator == "lte") = true
                    case pos =>
                      rw [if_pos h6]
                      exact BcfcInv_single k i _ (by simp) (by simpa using hkk) (by simp)
                    case neg =>
                      rw [if_neg h6]
                      exact BcfcInv_empty k i

/-! Shape equations for `buildCustomFieldConditions`. -/

theorem bcfc_eq_nonarr (db : FieldDB) (q : GoVal) (k : Int) (i : Nat) (pg : Bool)
    (h : ∀ arr, q ≠ .varr arr) :
    buildCustomFieldConditions db q k i pg = ([], [], i) := by
  cases q with
  | varr arr => exact absurd rfl (h arr)
  | vnull => rw [buildCustomFieldConditions] <;> (intros; simp_all)
  | vbool b => rw [buildCustomFieldConditions] <;> (intros; simp_all)
  | vnum n => rw [buildCustomFieldConditions] <;> (intros; simp_all)
  | vstr s => rw [buildCustomFieldConditions] <;> (intros; simp_all)
  | vobj o => rw [buildCustomFieldConditions] <;> (intros; simp_all)

theorem bcfc_eq_node (db : FieldDB) (op : String) (subs t : List GoVal)
    (k : Int) (i : Nat) (pg : Bool) :
    buildCustomFieldConditions db (.varr (.vstr op :: .varr subs :: t)) k i pg =
      (if op == "AND" then bcfcAndList db subs k i pg
       else if op == "OR" then
         (let r := bcfcOrList db subs k i pg
          if r.1.isEmpty then ([], r.2.1, r.2.2) else ([Cond.orGroup r.1], r.2.1, r.2.2))
       else ([], [], i)) := by
  rw [buildCustomFieldConditions]

theorem bcfc_eq_strNoArr (db : FieldDB) (op : String) (t : List GoVal)
    (k : Int) (i : Nat) (pg : Bool) (h : ∀ subs t2, t ≠ .varr subs :: t2) :
    buildCustomFieldConditions db (.varr (.vstr op :: t)) k i pg = ([], [], i) := by
  match t with
  | [] => rw [buildCustomFieldConditions] <;> (intros; simp_all)
  | .varr subs :: t2 => exact absurd rfl (h subs t2)
  | .vnull :: t2 => rw [buildCustomFieldConditions] <;> (intros; simp_all)
  | .vbool b :: t2 => rw [buildCustomFieldConditions] <;> (intros; simp_all)
  | .vnum n :: t2 => rw [buildCustomFieldConditions] <;> (intros; simp_all)
  | .vstr s :: t2 => rw [buildCustomFieldConditions] <;> (intros; simp_all)
  | .vobj o :: t2 => rw [buildCustomFieldConditions] <;> (intros; simp_all)

theorem bcfc_eq_leaf (db : FieldDB) (arr : List GoVal) (k : Int) (i : Nat) (pg : Bool)
    (h : ∀ s t, arr ≠ .vstr s :: t) :
    buildCustomFieldConditions db (.varr arr) k i pg = bcfcLeaf db arr k i := by
  match arr with
  | [] => rw [buildCustomFieldConditions] <;> (intros; simp_all)
  | .vstr s :: t => exact absurd rfl (h s t)
  | .vnull :: t => rw [buildCustomFieldConditions] <;> (intros; simp_all)
  | .vbool b :: t => rw [buildCustomFieldConditions] <;> (intros; simp_all)
  | .vnum n :: t => rw [buildCustomFieldConditions] <;> (intros; simp_all)
  | .varr a :: t => rw [buildCustomFieldConditions] <;> (intros; simp_all)
  | .vobj o :: t => rw [buildCustomFieldConditions] <;> (intros; simp_all)

theorem bcfcAndList_nil (db k i pg) : bcfcAndList db [] k i pg = ([], [], i) := by
  rw [bcfcAndList]

theorem bcfcAndList_cons (db q rest k i pg) :
    bcfcAndList db (q :: rest) k i pg =
      (let r1 := buildCustomFieldConditions db q k i pg
       let r2 := bcfcAndList db rest k r1.2.2 pg
       (r1.1 ++ r2.1, r1.2.1 ++ r2.2.1, r2.2.2)) := by
  rw [bcfcAndList]

theorem bcfcOrList_nil (db k i pg) : bcfcOrList db [] k i pg = ([], [], i) := by
  rw [bcfcOrList]

theorem bcfcOrList_cons (db q rest k i pg) :
    bcfcOrList db (q :: rest) k i pg =
      (let r1 := buildCustomFieldConditions db q k i pg
       if r1.1.isEmpty then bcfcOrList db rest k i pg
       else
         let r2 := bcfcOrList db rest k r1.2.2 pg
         (r1.1 ++ r2.1, r1.2.1 ++ r2.2.1, r2.2.2)) := by
  rw [bcfcOrList]

/-! The compiler invariant, by induction over the expression tree. -/

theorem bcfcAndList_master (db : FieldDB) (k : Int) (pg : Bool) (subs : List GoVal)
    (H : ∀ q ∈ subs, ∀ i, BcfcInv k i (buildCustomFieldConditions db q k i pg)) :
    ∀ i, BcfcInv k i (bcfcAndList db subs k i pg) := by
  induction subs with
  | nil =>
      intro i
      rw [bcfcAndList_nil]
      exact BcfcInv_empty k i
  | cons q rest ih =>
      intro i
      rw [bcfcAndList_cons]
      obtain ⟨h1a, h1b, h1c, h1d⟩ := H q (List.mem_cons_self q rest) i
      obtain ⟨h2a, h2b, h2c, h2d⟩ :=
        ih (fun q' hq' => H q' (List.mem_cons_of_mem q hq'))
          (buildCustomFieldConditions db q k i pg).2.2
      dsimp only
      refine ⟨?_, ?_, ?_, ?_⟩
      · simp only [List.length_append]
        omega
      · rw [condListPlaceholders_append, h1b, h2b, h1a, List.range'_append_1]
        congr 1
        simp only [List.length_append]
        omega
      · intro c hc
        rcases List.mem_append.mp hc with hc | hc
        · exact h1c c hc
        · exact h2c c hc
      · intro c hc t
        rcases List.mem_append.mp hc with hc | hc
        · exact h1d c hc t
        · exact h2d c hc t

theorem bcfcOrList_master (db : FieldDB) (k : Int) (pg : Bool) (subs : List GoVal)
    (H : ∀ q ∈ subs, ∀ i, BcfcInv k i (buildCustomFieldConditions db q k i pg)) :
    ∀ i, BcfcInv k i (bcfcOrList db subs k i pg) := by
  induction subs with
  | nil =>
      intro i
      rw [bcfcOrList_nil]
      exact BcfcInv_empty k i
  | cons q rest ih =>
      intro i
      rw [bcfcOrList_cons]
      obtain ⟨h1a, h1b, h1c, h1d⟩ := H q (List.mem_cons_self q rest) i
      dsimp only
      split
      next hemp => exact ih (fun q' hq' => H q' (List.mem_cons_of_mem q hq')) i
      next hemp =>
        obtain ⟨h2a, h2b, h2c, h2d⟩ :=
          ih (fun q' hq' => H q' (List.mem_cons_of_mem q hq'))
            (buildCustomFieldConditions db q k i pg).2.2
        refine ⟨?_, ?_, ?_, ?_⟩
        · simp only [List.length_append]
          omega
        · rw [condListPlaceholders_append, h1b, h2b, h1a, List.range'_append_1]
          congr 1
          simp only [List.length_append]
          omega
        · intro c hc
          rcases List.mem_append.mp hc with hc | hc
          · exact h1c c hc
          · exact h2c c hc
        · intro c hc t
          rcases List.mem_append.mp hc with hc | hc
          · exact h1d c hc t
          · exact h2d c hc t

theorem bcfc_master_aux : ∀ (N : Nat) (q : GoVal), sizeOf q ≤ N →
    ∀ (db : FieldDB) (k : Int) (i : Nat) (pg : Bool),
      BcfcInv k i (buildCustomFieldConditions db q k i pg) := by
  intro N
  induction N using Nat.strong_induction_on with
  | _ N ih =>
    intro q hq db k i pg
    match q, hq with
    | .vnull, _ =>
        rw [bcfc_eq_nonarr db _ k i pg (by intro arr h; cases h)]
        exact BcfcInv_empty k i
    | .vbool b, _ =>
        rw [bcfc_eq_nonarr db _ k i pg (by intro arr h; cases h)]
        exact BcfcInv_empty k i
    | .vnum n, _ =>
        rw [bcfc_eq_nonarr db _ k i pg (by intro arr h; cases h)]
        exact BcfcInv_empty k i
    | .vstr s, _ =>
        rw [bcfc_eq_nonarr db _ k i pg (by intro arr h; cases h)]
        exact BcfcInv_empty k i
    | .vobj o, _ =>
        rw [bcfc_eq_nonarr db _ k i pg (by intro arr h; cases h)]
        exact BcfcInv_empty k i
    | .varr (.vstr op :: .varr subs :: t), hq =>
        rw [bcfc_eq_node]
        have hsubs : ∀ q' ∈ subs, ∀ i', BcfcInv k i' (buildCustomFieldConditions db q' k i' pg) := by
          intro q' hq' i'
          have hlt : sizeOf q' < sizeOf (GoVal.varr (.vstr op :: .varr subs :: t)) := by
            have hm := List.sizeOf_lt_of_mem hq'
            simp only [GoVal.varr.sizeOf_spec, GoVal.vstr.sizeOf_spec, List.cons.sizeOf_spec]
            omega
          exact ih (sizeOf q') (by omega) q' le_rfl db k i' pg
        by_cases hop : (op == "AND") = true
        · rw [if_pos hop]
          exact bcfcAndList_master db k pg subs hsubs i
        · rw [if_neg hop]
          by_cases hop2 : (op == "OR") = true
          · rw [if_pos hop2]
            obtain ⟨ha, hb, hc, hd⟩ := bcfcOrList_master db k pg subs hsubs i
            dsimp only
            split
            next hemp =>
              have hnil : (bcfcOrList db subs k i pg).1 = [] := by
                simpa using hemp
              rw [hnil] at hb
              exact ⟨ha, hb, by simp, by simp⟩
            next hemp =>
              refine ⟨ha, ?_, ?_, ?_⟩
              · simpa using hb
              · intro c hcm
                rcases List.mem_singleton.mp hcm with rfl
                simpa using not_mem_condListFieldIDs k _ hc
              · intro c hcm t'
                rcases List.mem_singleton.mp hcm with rfl
                simpa using condListHasRuleType_eq_false t' _ (fun c' hc' => hd c' hc' t')
          · rw [if_neg hop2]
            exact BcfcInv_empty k i
    | .varr [], _ =>
        rw [bcfc_eq_leaf db _ k i pg (by intro s t h; cases h)]
        exact bcfcLeaf_master db _ k i
    | .varr [.vstr op], _ =>
        rw [bcfc_eq_strNoArr db op [] k i pg (by intro subs t2 h; cases h)]
        exact BcfcInv_empty k i
    | .varr (.vstr op :: .vnull :: t), _ =>
        rw [bcfc_eq_strNoArr db op (.vnull :: t) k i pg (by intro subs t2 h; simp at h)]
        exact BcfcInv_empty k i
    | .varr (.vstr op :: .vbool b :: t), _ =>
        rw [bcfc_eq_strNoArr db op (.vbool b :: t) k i pg (by intro subs t2 h; simp at h)]
        exact BcfcInv_empty k i
    | .varr (.vstr op :: .vnum n :: t), _ =>
        rw [bcfc_eq_strNoArr db op (.vnum n :: t) k i pg (by intro subs t2 h; simp at h)]
        exact BcfcInv_empty k i
    | .varr (.vstr op :: .vstr s2 :: t), _ =>
        rw [bcfc_eq_strNoArr db op (.vstr s2 :: t) k i pg (by intro subs t2 h; simp at h)]
        exact BcfcInv_empty k i
    | .varr (.vstr op :: .vobj o2 :: t), _ =>
        rw [bcfc_eq_strNoArr db op (.vobj o2 :: t) k i pg (by intro subs t2 h; simp at h)]
        exact BcfcInv_empty k i
    | .varr (.vnull :: t), _ =>
        rw [bcfc_eq_leaf db _ k i pg (by intro s t2 h; cases h)]
        exact bcfcLeaf_master db _ k i
    | .varr (.vbool b :: t), _ =>
        rw [bcfc_eq_leaf db _ k i pg (by intro s t2 h; cases h)]
        exact bcfcLeaf_master db _ k i
    | .varr (.vnum n :: t), _ =>
        rw [bcfc_eq_leaf db _ k i pg (by intro s t2 h; cases h)]
        exact bcfcLeaf_master db _ k i
    | .varr (.varr a :: t), _ =>
        rw [bcfc_eq_leaf db _ k i pg (by intro s t2 h; cases h)]
        exact bcfcLeaf_master db _ k i
    | .varr (.vobj o :: t), _ =>
        rw [bcfc_eq_leaf db _ k i pg (by intro s t2 h; cases h)]
        exact bcfcLeaf_master db _ k i

/-- The compiler invariant for every expression tree. -/
theorem bcfc_master (db : FieldDB) (q : GoVal) (k : Int) (i : Nat) (pg : Bool) :
    BcfcInv k i (buildCustomFieldConditions db q k i pg) :=
  bcfc_master_aux (sizeOf q) q le_rfl db k i pg

/-! ## Rule-loop invariants -/

/-- The placeholder/argIndex invariant of the builtin rule loop. -/
def BdfqInv (i : Nat) (r : List Cond × List GoVal × Nat) : Prop :=
  r.2.2 = i + r.2.1.length ∧
  condListPlaceholders r.1 = List.range' i r.2.1.length

theorem BdfqInv_append (i : Nat) (r1 r2 : List Cond × List GoVal × Nat)
    (h1 : BdfqInv i r1) (h2 : BdfqInv r1.2.2 r2) :
    BdfqInv i (r1.1 ++ r2.1, r1.2.1 ++ r2.2.1, r2.2.2) := by
  obtain ⟨h1a, h1b⟩ := h1
  obtain ⟨h2a, h2b⟩ := h2
  refine ⟨?_, ?_⟩
  · simp only [List.length_append]
    omega
  · rw [condListPlaceholders_append, h1b, h2b, h1a, List.range'_append_1]
    congr 1
    simp only [List.length_append]
    omega

theorem bdfqRule_inv (db : FieldDB) (decode : String → Option GoVal)
    (rule : List (String × GoVal)) (k : Int) (i : Nat) (pg : Bool) :
    BdfqInv i (bdfqRule db decode rule k i pg) := by
  unfold bdfqRule
  cases hrt : objLookup rule "rule_type" with
  | none => exact ⟨by simp, by simp⟩
  | some v =>
      cases v with
      | vnum ruleType =>
          cases hrv : objLookup rule "value" with
          | none => exact ⟨by simp, by simp⟩
          | some w =>
              cases w with
              | vstr value =>
                  dsimp only
                  by_cases h1 : (ruleType == 1) = true
                  · rw [if_pos h1]
                    exact ⟨by simp, by simp [List.range'_succ]⟩
                  rw [if_neg h1]
                  by_cases h2 : (ruleType == 2) = true
                  · rw [if_pos h2]
                    exact ⟨by simp, by simp [List.range'_succ]⟩
                  rw [if_neg h2]
                  by_cases h3 : (ruleType == 3) = true
                  · rw [if_pos h3]
                    exact ⟨by simp, by simp [List.range'_succ]⟩
                  rw [if_neg h3]
                  by_cases h4 : (ruleType == 4) = true
                  · rw [if_pos h4]
                    exact ⟨by simp, by simp [List.range'_succ]⟩
                  rw [if_neg h4]
                  by_cases h5 : (ruleType == 5) = true
                  · rw [if_pos h5]
                    exact ⟨by simp, by simp [List.range'_succ]⟩
                  rw [if_neg h5]
                  by_cases h6 : (ruleType == 6) = true
                  · rw [if_pos h6]
                    exact ⟨by simp, by simp [List.range'_succ]⟩
                  rw [if_neg h6]
                  by_cases h7 : (ruleType == 7) = true
                  · rw [if_pos h7]
                    exact ⟨by simp, by simp [List.range'_succ]⟩
                  rw [if_neg h7]
                  by_cases h8 : (ruleType == 8) = true
                  · rw [if_pos h8]
                    exact ⟨by simp, by simp [List.range'_succ]⟩
                  rw [if_neg h8]
                  by_cases h9 : (ruleType == 9) = true
                  · rw [if_pos h9]
                    exact ⟨by simp, by simp [List.range'_succ]⟩
                  rw [if_neg h9]
                  by_cases h42 : (ruleType == 42) = true
                  · rw [if_pos h42]
                    cases hd : decode value with
                    | none => exact ⟨by simp, by simp⟩
                    | some q =>
                        dsimp only
                        by_cases hemp : (buildCustomFieldConditions db q k i pg).1.isEmpty = true
                        · rw [if_pos hemp]
                          exact ⟨by simp, by simp⟩
                        · rw [if_neg hemp]
                          obtain ⟨ha, hb, _, _⟩ := bcfc_master db q k i pg
                          exact ⟨ha, hb⟩
                  rw [if_neg h42]
                  exact ⟨by simp, by simp⟩
              | vnull => exact ⟨by simp, by simp⟩
              | vbool b => exact ⟨by simp, by simp⟩
              | vnum n => exact ⟨by simp, by simp⟩
              | varr a => exact ⟨by simp, by simp⟩
              | vobj o => exact ⟨by simp, by simp⟩
      | vnull => exact ⟨by simp, by simp⟩
      | vbool b => exact ⟨by simp, by simp⟩
      | vstr s => exact ⟨by simp, by simp⟩
      | varr a => exact ⟨by simp, by simp⟩
      | vobj o => exact ⟨by simp, by simp⟩

theorem bdfqLoop_inv (db : FieldDB) (decode : String → Option GoVal)
    (rules : List (List (String × GoVal))) (k : Int) (pg : Bool) :
    ∀ i, BdfqInv i (bdfqLoop db decode rules k i pg) := by
  induction rules with
  | nil =>
      intro i
      rw [bdfqLoop]
      exact ⟨by simp, by simp⟩
  | cons rule rest ih =>
      intro i
      rw [bdfqLoop]
      exact BdfqInv_append i _ _ (bdfqRule_inv db decode rule k i pg)
        (ih (bdfqRule db decode rule k i pg).2.2)

/-! ## Exclusion lemmas for the three-argument compiler variant -/

theorem bdfqRule_no_ruleType (db : FieldDB) (decode : String → Option GoVal)
    (rule : List (String × GoVal)) (k : Int) (i : Nat) (pg : Bool) (t : Int)
    (h : ruleHasType rule t = false) :
    ∀ c ∈ (bdfqRule db decode rule k i pg).1, condIsRuleType t c = false := by
  unfold bdfqRule
  cases hrt : objLookup rule "rule_type" with
  | none => intro c hc; simp at hc
  | some v =>
      cases v with
      | vnum ruleType =>
          have hne : (ruleType == t) = false := by
            unfold ruleHasType at h
            rw [hrt] at h
            exact h
          cases hrv : objLookup rule "value" with
          | none => intro c hc; simp at hc
          | some w =>
              cases w with
              | vstr value =>
                  dsimp only
                  by_cases h1 : (ruleType == 1) = true
                  · rw [if_pos h1]
                    intro c hc
                    rcases List.mem_singleton.mp hc with rfl
                    have e1 : ruleType = 1 := by simpa using h1
                    have e2 : ruleType ≠ t := by simpa using hne
                    simp only [condIsRuleType_correspondent, beq_eq_false_iff_ne]
                    omega
                  rw [if_neg h1]
                  by_cases h2 : (ruleType == 2) = true
                  · rw [if_pos h2]
                    intro c hc
                    rcases List.mem_singleton.mp hc with rfl
                    have e1 : ruleType = 2 := by simpa using h2
                    have e2 : ruleType ≠ t := by simpa using hne
                    simp only [condIsRuleType_documentType, beq_eq_false_iff_ne]
                    omega
                  rw [if_neg h2]
                  by_cases h3 : (ruleType == 3) = true
                  · rw [if_pos h3]
                    intro c hc
                    rcases List.mem_singleton.mp hc with rfl
                    have e1 : ruleType = 3 := by simpa using h3
                    have e2 : ruleType ≠ t := by simpa using hne
                    simp only [condIsRuleType_hasTagAny, beq_eq_false_iff_ne]
                    omega
                  rw [if_neg h3]
                  by_cases h4 : (ruleType == 4) = true
                  · rw [if_pos h4]
                    intro c hc
                    rcases List.mem_singleton.mp hc with rfl
                    have e1 : ruleType = 4 := by simpa using h4
                    have e2 : ruleType ≠ t := by simpa using hne
                    simp only [condIsRuleType_storagePath, beq_eq_false_iff_ne]
                    omega
                  rw [if_neg h4]
                  by_cases h5 : (ruleType == 5) = true
                  · rw [if_pos h5]
                    intro c hc
                    rcases List.mem_singleton.mp hc with rfl
                    have e1 : ruleType = 5 := by simpa using h5
                    have e2 : ruleType ≠ t := by simpa using hne
                    simp only [condIsRuleType_ownerAny, beq_eq_false_iff_ne]
                    omega
                  rw [if_neg h5]
                  by_cases h6 : (ruleType == 6) = true
                  · rw [if_pos h6]
                    intro c hc
                    rcases List.mem_singleton.mp hc with rfl
                    have e1 : ruleType = 6 := by simpa using h6
                    have e2 : ruleType ≠ t := by simpa using hne
                    simp only [condIsRuleType_createdAfter, beq_eq_false_iff_ne]
                    omega
                  rw [if_neg h6]
                  by_cases h7 : (ruleType == 7) = true
                  · rw [if_pos h7]
                    intro c hc
                    rcases List.mem_singleton.mp hc with rfl
                    have e1 : ruleType = 7 := by simpa using h7
                    have e2 : ruleType ≠ t := by simpa using hne
                    simp only [condIsRuleType_createdBefore, beq_eq_false_iff_ne]
                    omega
                  rw [if_neg h7]
                  by_cases h8 : (ruleType == 8) = true
                  · rw [if_pos h8]
                    intro c hc
                    rcases List.mem_singleton.mp hc with rfl
                    have e1 : ruleType = 8 := by simpa using h8
                    have e2 : ruleType ≠ t := by simpa using hne
                    simp only [condIsRuleType_asn, beq_eq_false_iff_ne]
                    omega
                  rw [if_neg h8]
                  by_cases h9 : (ruleType == 9) = true
                  · rw [if_pos h9]
                    intro c hc
                    rcases List.mem_singleton.mp hc with rfl
                    have e1 : ruleType = 9 := by simpa using h9
                    have e2 : ruleType ≠ t := by simpa using hne
                    simp only [condIsRuleType_isInInbox, beq_eq_false_iff_ne]
                    omega
                  rw [if_neg h9]
                  by_cases h42 : (ruleType == 42) = true
                  · rw [if_pos h42]
                    cases hd : decode value with
                    | none => intro c hc; simp at hc
                    | some q =>
                        dsimp only
                        by_cases hemp : (buildCustomFieldConditions db q k i pg).1.isEmpty = true
                        · rw [if_pos hemp]
                          intro c hc
                          simp at hc
                        · rw [if_neg hemp]
                          obtain ⟨_, _, _, hd4⟩ := bcfc_master db q k i pg
                          exact fun c hc => hd4 c hc t
                  rw [if_neg h42]
                  intro c hc
                  simp at hc
              | vnull => intro c hc; simp at hc
              | vbool b => intro c hc; simp at hc
              | vnum n => intro c hc; simp at hc
              | varr a => intro c hc; simp at hc
              | vobj o => intro c hc; simp at hc
      | vnull => intro c hc; simp at hc
      | vbool b => intro c hc; simp at hc
      | vstr s => intro c hc; simp at hc
      | varr a => intro c hc; simp at hc
      | vobj o => intro c hc; simp at hc

theorem bdfqLoopEx_no_excluded (db : FieldDB) (decode : String → Option GoVal)
    (rules : List (List (String × GoVal))) (k ert : Int) (pg : Bool) :
    ∀ i, ∀ c ∈ (bdfqLoopEx db decode rules k ert i pg).1,
      condIsRuleType ert c = false := by
  induction rules with
  | nil =>
      intro i c hc
      rw [bdfqLoopEx] at hc
      simp at hc
  | cons rule rest ih =>
      intro i c hc
      rw [bdfqLoopEx] at hc
      by_cases h : ruleHasType rule ert = true
      · rw [if_pos h] at hc
        exact ih i c hc
      · rw [if_neg h] at hc
        dsimp only at hc
        rcases List.mem_append.mp hc with hc | hc
        · exact bdfqRule_no_ruleType db decode rule k i pg ert (by simpa using h) c hc
        · exact ih _ c hc

theorem bdfqLoopEx_eq_filter (db : FieldDB) (decode : String → Option GoVal)
    (rules : List (List (String × GoVal))) (k ert : Int) (pg : Bool) :
    ∀ i, bdfqLoopEx db decode rules k ert i pg =
      bdfqLoop db decode (rules.filter (fun r => !(ruleHasType r ert))) k i pg := by
  induction rules with
  | nil =>
      intro i
      rw [bdfqLoopEx]
      simp only [List.filter_nil]
      rw [bdfqLoop]
  | cons rule rest ih =>
      intro i
      rw [bdfqLoopEx]
      by_cases h : ruleHasType rule ert = true
      · rw [if_pos h]
        have hp : (!(ruleHasType rule ert)) = false := by simp [h]
        simp only [List.filter_cons, hp, Bool.false_eq_true, if_false]
        exact ih i
      · rw [if_neg h]
        have hp : (!(ruleHasType rule ert)) = true := by simp [h]
        simp only [List.filter_cons, hp, if_true]
        rw [bdfqLoop]
        rw [ih]


/-! ## Aggregation lemmas -/

/-- Insertion into a document-id set (`set[documentID] = true`). -/
def insertDoc (l : List Int) (d : Int) : List Int :=
  if d ∈ l then l else l ++ [d]

/-- Repeated insertion. -/
def insertDocs (l : List Int) (ds : List Int) : List Int :=
  ds.foldl insertDoc l

/-- The document ids of the rows whose decomposed value list contains `v`,
one per row, in row order. -/
def docsFor (rows : List (String × Int)) (v : String) : List Int :=
  (rows.filter (fun r => decide (v ∈ rowParts r.1))).map Prod.snd

/-- Association-list lookup in the value → document-set map. -/
def vdmLookup (m : List (String × List Int)) (v : String) : Option (List Int) :=
  (m.find? (fun p => p.1 == v)).map (·.2)

/-- The per-row fold `addDocToValue` applied over one row's parts. -/
def rowFold (parts : List String) (d : Int) (m : List (String × List Int)) :
    List (String × List Int) :=
  parts.foldl (fun m p => addDocToValue m p d) m

theorem aggregateRows_eq_foldl (rows : List (String × Int)) :
    aggregateRows rows = rows.foldl (fun m row => rowFold (rowParts row.1) row.2 m) [] := rfl

theorem insertDoc_mem (l : List Int) (d x : Int) :
    x ∈ insertDoc l d ↔ x ∈ l ∨ x = d := by
  unfold insertDoc
  split
  next h => simp only [iff_self_or]; intro he; exact he ▸ h
  next h => simp

theorem insertDoc_idem (l : List Int) (d : Int) :
    insertDoc (insertDoc l d) d = insertDoc l d := by
  unfold insertDoc
  split
  next h => simp [h]
  next h => simp

theorem insertDoc_nodup (l : List Int) (d : Int) (h : l.Nodup) :
    (insertDoc l d).Nodup := by
  unfold insertDoc
  split
  next => exact h
  next hd =>
    rw [List.nodup_append]
    refine ⟨h, List.nodup_singleton d, ?_⟩
    intro a ha hb
    rw [List.mem_singleton] at hb
    exact hd (hb ▸ ha)

theorem insertDocs_nil (l : List Int) : insertDocs l [] = l := rfl

theorem insertDocs_cons (l : List Int) (d : Int) (ds : List Int) :
    insertDocs l (d :: ds) = insertDocs (insertDoc l d) ds := rfl

theorem insertDocs_mem (ds l : List Int) (x : Int) :
    x ∈ insertDocs l ds ↔ x ∈ l ∨ x ∈ ds := by
  induction ds generalizing l with
  | nil => simp [insertDocs_nil]
  | cons d rest ih =>
      rw [insertDocs_cons, ih, insertDoc_mem]
      simp [or_assoc]

theorem insertDocs_nodup (ds l : List Int) (h : l.Nodup) :
    (insertDocs l ds).Nodup := by
  induction ds generalizing l with
  | nil => exact h
  | cons d rest ih => exact ih _ (insertDoc_nodup l d h)

theorem insertDocs_nil_length (ds : List Int) :
    (insertDocs [] ds).length = ds.toFinset.card := by
  have hnd : (insertDocs [] ds).Nodup := insertDocs_nodup ds [] List.nodup_nil
  have hfs : (insertDocs [] ds).toFinset = ds.toFinset := by
    ext x
    simp [List.mem_toFinset, insertDocs_mem]
  calc (insertDocs [] ds).length = (insertDocs [] ds).toFinset.card :=
        (List.toFinset_card_of_nodup hnd).symm
    _ = ds.toFinset.card := by rw [hfs]

/-- Effect of the in-place update branch of `addDocToValue` on a lookup. -/
theorem vdmLookup_map_update (m : List (String × List Int)) (p : String) (d : Int)
    (v : String) :
    vdmLookup (m.map (fun q =>
        if q.1 == p then (q.1, if d ∈ q.2 then q.2 else q.2 ++ [d]) else q)) v =
      if v = p then (vdmLookup m v).map (fun l => insertDoc l d) else vdmLookup m v := by
  induction m with
  | nil => simp [vdmLookup]
  | cons e rest ih =>
      unfold vdmLookup at ih ⊢
      by_cases hev : (e.1 == v) = true
      · have he : e.1 = v := by simpa using hev
        by_cases hvp : v = p
        · have hep : (e.1 == p) = true := by rw [he]; simpa using hvp
          simp only [List.map_cons, hep, if_pos, List.find?_cons, hev, if_pos hvp]
          simp [insertDoc, hev]
        · have hep : (e.1 == p) = false := by
            simp only [beq_eq_false_iff_ne]
            rw [he]
            exact hvp
          simp only [List.map_cons, hep, Bool.false_eq_true, if_false, List.find?_cons, hev,
            if_neg hvp]
      · have hevf : (e.1 == v) = false := by simpa using hev
        have hfst : (if e.1 == p then (e.1, if d ∈ e.2 then e.2 else e.2 ++ [d]) else e).1 = e.1 := by
          split <;> rfl
        simp only [List.map_cons, List.find?_cons]
        rw [show ((if e.1 == p then (e.1, if d ∈ e.2 then e.2 else e.2 ++ [d]) else e).1 == v) = false by
          rw [hfst]; exact hevf]
        rw [hevf]
        exact ih

/-- How one `addDocToValue` call changes a lookup. -/
theorem addDocToValue_lookup (m : List (String × List Int)) (p : String) (d : Int)
    (v : String) :
    vdmLookup (addDocToValue m p d) v =
      if v = p then some (insertDoc ((vdmLookup m v).getD []) d) else vdmLookup m v := by
  unfold addDocToValue
  split
  next hany =>
      rw [vdmLookup_map_update]
      by_cases hvp : v = p
      · rw [if_pos hvp, if_pos hvp]
        have hsome : ∃ l, vdmLookup m v = some l := by
          rw [List.any_eq_true] at hany
          obtain ⟨e, he, hep⟩ := hany
          have hp2 : (e.1 == v) = true := by
            rw [hvp]
            exact hep
          have hiss : (m.find? (fun q => q.1 == v)).isSome = true := by
            rw [List.find?_isSome]
            exact ⟨e, he, hp2⟩
          obtain ⟨r, hr⟩ := Option.isSome_iff_exists.mp hiss
          exact ⟨r.2, by rw [vdmLookup, hr]; rfl⟩
        obtain ⟨l, hl⟩ := hsome
        rw [hl]
        rfl
      · rw [if_neg hvp, if_neg hvp]
  next hany =>
      unfold vdmLookup
      rw [List.find?_append]
      by_cases hvp : v = p
      · rw [if_pos hvp]
        have hnone : m.find? (fun q => q.1 == v) = none := by
          rw [List.find?_eq_none]
          intro e he
          intro hcon
          apply hany
          rw [List.any_eq_true]
          refine ⟨e, he, ?_⟩
          rw [← hvp]
          exact hcon
        have hpv : (p == v) = true := by simpa using hvp.symm
        rw [hnone]
        simp [List.find?_cons, hpv, insertDoc]
      · rw [if_neg hvp]
        have hpv : (p == v) = false := by
          simp only [beq_eq_false_iff_ne]
          exact fun h => hvp h.symm
        cases hf : m.find? (fun q => q.1 == v) with
        | some r => rfl
        | none => simp [List.find?_cons, hpv]


/-- Effect of one row's part loop on a lookup: every part of the row
absorbs the row's document id exactly once. -/
theorem rowFold_lookup (parts : List String) (d : Int) (m : List (String × List Int))
    (v : String) :
    vdmLookup (rowFold parts d m) v =
      if v ∈ parts then some (insertDoc ((vdmLookup m v).getD []) d)
      else vdmLookup m v := by
  induction parts generalizing m with
  | nil => simp [rowFold]
  | cons p rest ih =>
      rw [show rowFold (p :: rest) d m = rowFold rest d (addDocToValue m p d) from rfl, ih]
      by_cases hvr : v ∈ rest
      · rw [if_pos hvr, if_pos (List.mem_cons_of_mem p hvr)]
        rw [addDocToValue_lookup]
        by_cases hvp : v = p
        · rw [if_pos hvp]
          rw [Option.getD_some, insertDoc_idem]
        · rw [if_neg hvp]
      · rw [if_neg hvr]
        rw [addDocToValue_lookup]
        by_cases hvp : v = p
        · rw [if_pos hvp, if_pos (by rw [hvp]; exact List.mem_cons_self p rest)]
        · rw [if_neg hvp, if_neg (by simp [hvp, hvr])]

/-- Accumulated insertion of a batch of document ids into an optional
document set. -/
def extendDocs (o : Option (List Int)) (ds : List Int) : Option (List Int) :=
  match o, ds with
  | none, [] => none
  | _, _ => some (insertDocs (o.getD []) ds)

theorem extendDocs_none_nil : extendDocs none [] = none := rfl

theorem extendDocs_nil (o : Option (List Int)) : extendDocs o [] = o := by
  cases o with
  | none => rfl
  | some l => rfl

theorem extendDocs_some (l : List Int) (ds : List Int) :
    extendDocs (some l) ds = some (insertDocs l ds) := by
  cases ds with
  | nil => rfl
  | cons d rest => rfl

theorem extendDocs_cons (o : Option (List Int)) (d : Int) (ds : List Int) :
    extendDocs o (d :: ds) = extendDocs (some (insertDoc (o.getD []) d)) ds := by
  rw [extendDocs_some]
  cases o with
  | none => rfl
  | some l => rfl

theorem docsFor_cons (raw : String) (d : Int) (rest : List (String × Int)) (v : String) :
    docsFor ((raw, d) :: rest) v =
      if v ∈ rowParts raw then d :: docsFor rest v else docsFor rest v := by
  unfold docsFor
  rw [List.filter_cons]
  by_cases h : v ∈ rowParts raw
  · simp [h]
  · simp [h]

/-- The whole aggregation fold, characterised per value. -/
theorem aggFold_lookup (rows : List (String × Int)) (m : List (String × List Int))
    (v : String) :
    vdmLookup (rows.foldl (fun m row => rowFold (rowParts row.1) row.2 m) m) v =
      extendDocs (vdmLookup m v) (docsFor rows v) := by
  induction rows generalizing m with
  | nil =>
      rw [List.foldl_nil, show docsFor [] v = [] from rfl, extendDocs_nil]
  | cons row rest ih =>
      obtain ⟨raw, d⟩ := row
      rw [List.foldl_cons, ih, docsFor_cons, rowFold_lookup]
      by_cases h : v ∈ rowParts raw
      · rw [if_pos h, if_pos h, extendDocs_cons, extendDocs_some]
      · rw [if_neg h, if_neg h]

theorem aggregateRows_lookup (rows : List (String × Int)) (v : String) :
    vdmLookup (aggregateRows rows) v = extendDocs none (docsFor rows v) := by
  rw [aggregateRows_eq_foldl, aggFold_lookup]
  rfl

/-! Keys of the aggregation map are pairwise distinct, so a member entry is
what the lookup returns. -/

def KeysNodup (m : List (String × List Int)) : Prop := (m.map Prod.fst).Nodup

theorem addDocToValue_keysNodup (m : List (String × List Int)) (p : String) (d : Int)
    (h : KeysNodup m) : KeysNodup (addDocToValue m p d) := by
  unfold addDocToValue
  split
  next hany =>
      unfold KeysNodup at h ⊢
      have : (m.map (fun q =>
          if q.1 == p then (q.1, if d ∈ q.2 then q.2 else q.2 ++ [d]) else q)).map Prod.fst
          = m.map Prod.fst := by
        rw [List.map_map]
        apply List.map_congr_left
        intro q _
        simp only [Function.comp]
        split <;> rfl
      rw [this]
      exact h
  next hany =>
      unfold KeysNodup at h ⊢
      rw [List.map_append]
      rw [List.nodup_append]
      refine ⟨h, by simp, ?_⟩
      intro a ha hb
      simp only [List.map_cons, List.map_nil, List.mem_singleton] at hb
      rw [List.mem_map] at ha
      obtain ⟨e, he, hfst⟩ := ha
      apply hany
      rw [List.any_eq_true]
      exact ⟨e, he, by rw [hfst, hb]; simp⟩

theorem rowFold_keysNodup (parts : List String) (d : Int) (m : List (String × List Int))
    (h : KeysNodup m) : KeysNodup (rowFold parts d m) := by
  induction parts generalizing m with
  | nil => exact h
  | cons p rest ih => exact ih _ (addDocToValue_keysNodup m p d h)

theorem aggregateRows_keysNodup (rows : List (String × Int)) :
    KeysNodup (aggregateRows rows) := by
  rw [aggregateRows_eq_foldl]
  have H : ∀ (m : List (String × List Int)), KeysNodup m →
      KeysNodup (rows.foldl (fun m row => rowFold (rowParts row.1) row.2 m) m) := by
    induction rows with
    | nil => intro m hm; exact hm
    | cons row rest ih =>
        intro m hm
        rw [List.foldl_cons]
        exact ih _ (rowFold_keysNodup _ _ _ hm)
  exact H [] (by simp [KeysNodup])

theorem vdmLookup_of_mem (m : List (String × List Int)) (v : String) (ds : List Int)
    (hm : KeysNodup m) (h : (v, ds) ∈ m) : vdmLookup m v = some ds := by
  induction m with
  | nil => cases h
  | cons e rest ih =>
      unfold vdmLookup
      rcases List.mem_cons.mp h with rfl | hmem
      · simp [List.find?_cons]
      · have hek : (e.1 == v) = false := by
          unfold KeysNodup at hm
          rw [List.map_cons, List.nodup_cons] at hm
          have hv : v ∈ rest.map Prod.fst := List.mem_map.mpr ⟨(v, ds), hmem, rfl⟩
          simp only [beq_eq_false_iff_ne]
          intro he
          exact hm.1 (he ▸ hv)
        rw [List.find?_cons, hek]
        exact ih (by
          unfold KeysNodup at hm ⊢
          rw [List.map_cons, List.nodup_cons] at hm
          exact hm.2) hmem

/-- The document-set of every map entry counts exactly the distinct
documents among the rows whose decomposed parts contain the value. -/
theorem aggregateRows_entry_count (rows : List (String × Int)) (v : String)
    (ds : List Int) (h : (v, ds) ∈ aggregateRows rows) :
    ds.length = (docsFor rows v).toFinset.card ∧ docsFor rows v ≠ [] := by
  have hl : vdmLookup (aggregateRows rows) v = some ds :=
    vdmLookup_of_mem _ v ds (aggregateRows_keysNodup rows) h
  rw [aggregateRows_lookup] at hl
  cases hdf : docsFor rows v with
  | nil =>
      rw [hdf, extendDocs_none_nil] at hl
      cases hl
  | cons d rest =>
      rw [hdf] at hl
      have : ds = insertDocs [] (d :: rest) := by
        have h2 : extendDocs none (d :: rest) = some (insertDocs [] (d :: rest)) := rfl
        rw [h2] at hl
        exact (Option.some.injEq _ _ ▸ hl).symm
      refine ⟨?_, by simp⟩
      rw [this, insertDocs_nil_length]

/-- Every key of the aggregation map is a decomposed part of some fetched
row. -/
theorem aggregateRows_key_from_rows (rows : List (String × Int)) (v : String)
    (ds : List Int) (h : (v, ds) ∈ aggregateRows rows) :
    ∃ r ∈ rows, v ∈ rowParts r.1 := by
  obtain ⟨_, hne⟩ := aggregateRows_entry_count rows v ds h
  unfold docsFor at hne
  cases hf : rows.filter (fun r => decide (v ∈ rowParts r.1)) with
  | nil => rw [hf] at hne; simp at hne
  | cons r rest =>
      have hrmem : r ∈ rows.filter (fun r => decide (v ∈ rowParts r.1)) := by
        rw [hf]
        exact List.mem_cons_self r rest
      rw [List.mem_filter] at hrmem
      exact ⟨r, hrmem.1, by simpa using hrmem.2⟩

/-! ## Blank-bucket lemmas -/

theorem generateID_ne_blank (v : String) : generateID v ≠ "__blank__" := by
  unfold generateID
  intro h
  have h2 := congrArg String.data h
  rw [String.data_append] at h2
  simp at h2

theorem facetOfEntry_ID_ne_blank (dataType : String) (som : List (String × String))
    (v : String) (n : Int) (hv : dataType = "select" → v ≠ "__blank__") :
    (facetOfEntry dataType som v n).ID ≠ "__blank__" := by
  unfold facetOfEntry
  split
  next h => exact hv (by simpa using h)
  next => exact generateID_ne_blank v

/-- The blank bucket at the output of either facet pipeline: it occurs
exactly when the fetched blank count is positive, carries the literal
fields, and is unique.  For non-select fields this is unconditional (data
facets carry `generateID` hashes as ids); a select field uses the raw
stored value as the id, so there the proviso that no stored atomic value
is the literal `"__blank__"` is needed. -/
theorem blank_core (rows : List (String × Int)) (dataType : String)
    (som : List (String × String)) (bc : Option Int) (sb so : String) (ic : Bool)
    (hrows : dataType = "select" → ∀ r ∈ rows, "__blank__" ∉ rowParts r.1) :
    (List.countP (fun fv => fv.ID == "__blank__")
        (sortValues (appendBlank (facetsOfMap dataType som (aggregateRows rows)) bc) sb so ic) =
      if 0 < bc.getD 0 then 1 else 0) ∧
    ∀ fv ∈ sortValues (appendBlank (facetsOfMap dataType som (aggregateRows rows)) bc) sb so ic,
      fv.ID = "__blank__" → fv = blankFacetOf (bc.getD 0) := by
  have hvals : ∀ fv ∈ facetsOfMap dataType som (aggregateRows rows), fv.ID ≠ "__blank__" := by
    intro fv hfv
    unfold facetsOfMap at hfv
    rw [List.mem_map] at hfv
    obtain ⟨e, he, heq⟩ := hfv
    obtain ⟨r, hr, hpart⟩ := aggregateRows_key_from_rows rows e.1 e.2 (by
      have : e = (e.1, e.2) := rfl
      rw [← this]
      exact he)
    have hvne : dataType = "select" → e.1 ≠ "__blank__" := by
      intro hdt hcon
      exact hrows hdt r hr (hcon ▸ hpart)
    rw [← heq]
    exact facetOfEntry_ID_ne_blank dataType som e.1 _ hvne
  have hcount0 : List.countP (fun fv => fv.ID == "__blank__")
      (facetsOfMap dataType som (aggregateRows rows)) = 0 := by
    rw [List.countP_eq_zero]
    intro fv hfv
    simpa using hvals fv hfv
  have hperm := sortValues_perm (appendBlank (facetsOfMap dataType som (aggregateRows rows)) bc) sb so ic
  constructor
  · rw [hperm.countP_eq]
    cases bc with
    | none => simpa [appendBlank] using hcount0
    | some c =>
        unfold appendBlank
        dsimp only
        by_cases hc : c > 0
        · rw [if_pos hc, List.countP_append, hcount0]
          simp [blankFacetOf, hc, List.countP_cons]
        · rw [if_neg hc]
          have : ¬ (0 < (some c).getD 0) := by simpa using hc
          rw [if_neg this]
          exact hcount0
  · intro fv hfv hid
    have hfv2 : fv ∈ appendBlank (facetsOfMap dataType som (aggregateRows rows)) bc :=
      hperm.mem_iff.mp hfv
    cases bc with
    | none => exact absurd hid (hvals fv hfv2)
    | some c =>
        unfold appendBlank at hfv2
        dsimp only at hfv2
        by_cases hc : c > 0
        · rw [if_pos hc] at hfv2
          rcases List.mem_append.mp hfv2 with hmem | hmem
          · exact absurd hid (hvals fv hmem)
          · rcases List.mem_singleton.mp hmem with rfl
            rfl
        · rw [if_neg hc] at hfv2
          exact absurd hid (hvals fv hfv2)

/-! ## `parseValueList` lemmas -/

theorem splitOnP_no_sep {α : Type} (p : α → Bool) (xs : List α) :
    ∀ chunk ∈ xs.splitOnP p, ∀ x ∈ chunk, p x = false := by
  induction xs with
  | nil =>
      intro chunk hc x hx
      rw [List.splitOnP_nil] at hc
      rcases List.mem_singleton.mp hc with rfl
      cases hx
  | cons a rest ih =>
      intro chunk hc x hx
      rw [List.splitOnP_cons] at hc
      by_cases hpa : p a = true
      · rw [if_pos hpa] at hc
        rcases List.mem_cons.mp hc with rfl | hc
        · cases hx
        · exact ih chunk hc x hx
      · rw [if_neg hpa] at hc
        cases hsp : rest.splitOnP p with
        | nil => exact absurd hsp (List.splitOnP_ne_nil p rest)
        | cons h1 t =>
            rw [hsp] at hc
            simp only [List.modifyHead] at hc
            rcases List.mem_cons.mp hc with rfl | hc
            · rcases List.mem_cons.mp hx with rfl | hx
              · simpa using hpa
              · exact ih h1 (by rw [hsp]; exact List.mem_cons_self h1 t) x hx
            · exact ih chunk (by rw [hsp]; exact List.mem_cons_of_mem h1 hc) x hx

/-- Every element of `fieldsFunc f s` is non-empty and contains no
character satisfying `f`. -/
theorem fieldsFunc_mem (f : Char → Bool) (v s : String) (h : s ∈ fieldsFunc f v) :
    s ≠ "" ∧ ∀ c ∈ s.data, f c = false := by
  unfold fieldsFunc at h
  rw [List.mem_map] at h
  obtain ⟨cs, hcs, rfl⟩ := h
  rw [List.mem_filter] at hcs
  obtain ⟨hmem, hne⟩ := hcs
  constructor
  · intro he
    have hd := congrArg String.data he
    have hcs0 : cs = [] := by simpa using hd
    rw [hcs0] at hne
    simp at hne
  · intro c hc
    exact splitOnP_no_sep f v.toList cs hmem c (by simpa using hc)

/-! ## Concrete sample data used by the claim witnesses -/

/-- A sample `extra_data` payload for a select field: two options,
`o1 ↦ "Finance"` and `o2 ↦ "Legal"`. -/
def sampleExtraData : GoVal :=
  .vobj [("select_options", .varr
    [.vobj [("id", .vstr "o1"), ("label", .vstr "Finance")],
     .vobj [("id", .vstr "o2"), ("label", .vstr "Legal")]])]

/-- A sample field table: field 7 is a select field with `sampleExtraData`,
field 3 a longtext field. -/
def sampleDB : FieldDB := fun n =>
  if n == 7 then some ⟨"category", "select", some sampleExtraData⟩
  else if n == 3 then some ⟨"city", "longtext", none⟩
  else none

/-- A sample database state over `sampleDB`: every data query returns the
single row `("A", 1)`, every count query returns 2, builtin queries return
no rows. -/
def sampleDBState : DBState :=
  ⟨sampleDB, fun _ _ => [("A", 1)], fun _ _ => some 2, fun _ _ => []⟩

/-- A field table with one select field (id 9, no options). -/
def blankDB : FieldDB := fun n =>
  if n == 9 then some ⟨"status", "select", none⟩ else none

/-- A database state over `blankDB` in which a document stores the literal
value `"__blank__"` in the select field and the blank count is 2. -/
def blankDBState : DBState :=
  ⟨blankDB, fun _ _ => [("__blank__", 1)], fun _ _ => some 2, fun _ _ => []⟩

/-! ## Small evaluation helpers for `exchangeSort` (it recurses on the
length measure, so concrete runs are evaluated through its equations) -/

theorem exchangeSort_single (ss) (a : CustomFieldValueOption) :
    exchangeSort ss [a] = [a] := by
  rw [exchangeSort_cons]
  rw [show innerPass ss a [] = (a, []) from rfl]
  dsimp only
  rw [exchangeSort_nil]

theorem exchangeSort_pair (ss) (a b : CustomFieldValueOption)
    (h : ss a b = true) : exchangeSort ss [a, b] = [b, a] := by
  rw [exchangeSort_cons, innerPass_cons_pos ss a b [] h]
  rw [show innerPass ss b [] = (b, []) from rfl]
  dsimp only
  rw [exchangeSort_single]

/-! ## The claims -/

/-- C1: self-exclusion of `buildCustomFieldConditions`.  A leaf whose
`fieldId` equals the excluded field id `k` contributes no condition and no
parameters (first conjunct, for every leaf tail `rest`), and for every
decoded filter expression the compiled condition list references no field id
equal to `k` (`condFieldIDs` collects every field id spliced into the SQL
text of a condition). -/
theorem c1_self_exclusion (db : FieldDB) (q : GoVal) (k : Int) (i : Nat)
    (pg : Bool) (rest : List GoVal) :
    buildCustomFieldConditions db (.varr (.vnum k :: rest)) k i pg = ([], [], i) ∧
    ∀ c ∈ (buildCustomFieldConditions db q k i pg).1, k ∉ condFieldIDs c := by
  constructor
  · rw [bcfc_eq_leaf db (GoVal.vnum k :: rest) k i pg (by intro s t h; simp at h)]
    unfold bcfcLeaf
    by_cases hlen : (GoVal.vnum k :: rest).length ≥ 3
    · rw [if_pos hlen]
      dsimp only
      rw [if_pos (show (k == k) = true by simp)]
    · rw [if_neg hlen]
  · intro c hc
    exact (bcfc_master db q k i pg).2.2.1 c hc

/-- C2 counterexample: `GetBuiltinFilterValues` is not fail-open.  On a
malformed filter-rule payload it returns the "failed to build filter query"
error even though the database access succeeds, refuting the claim that a
malformed filter never causes an error result. -/
theorem c2_counterexample :
    GetBuiltinFilterValues sampleDBState (fun _ => none) "correspondent"
      .malformed true = .error .filterQueryBuildFailed := rfl

/-- C2 amended: `GetValueCounts` is fail-open on malformed filter input —
it behaves exactly as with an empty (absent) filter, and returns a non-error
result whenever the field exists — but `GetBuiltinFilterValues` is
fail-closed: a malformed filter always yields the filter-build error. -/
theorem c2_fail_open_amended :
    (∀ (s : DBState) (decode : String → Option GoVal) (fieldID : Int)
        (sb so : String) (ic pg : Bool),
        GetValueCounts s decode fieldID .malformed sb so ic pg =
          GetValueCounts s decode fieldID .emptyStr sb so ic pg ∧
        ∀ meta, s.fieldMeta fieldID = some meta →
          ∃ out, GetValueCounts s decode fieldID .malformed sb so ic pg = .ok out) ∧
    (∀ (s : DBState) (decode : String → Option GoVal) (ft : String) (pg : Bool),
        GetBuiltinFilterValues s decode ft .malformed pg =
          .error .filterQueryBuildFailed) := by
  constructor
  · intro s decode fieldID sb so ic pg
    refine ⟨rfl, ?_⟩
    intro meta hmeta
    unfold GetValueCounts
    rw [hmeta]
    exact ⟨_, rfl⟩
  · intro s decode ft pg
    rfl

/-- C2 witness: the amended theorem at the sample state and field 3. -/
theorem c2_fail_open_amended_witness :
    sampleDBState.fieldMeta 3 = some ⟨"city", "longtext", none⟩ ∧
    ∃ out, GetValueCounts sampleDBState (fun _ => none) 3 .malformed "" "" false true =
      .ok out :=
  ⟨rfl, (c2_fail_open_amended.1 sampleDBState (fun _ => none) 3 "" "" false true).2
    ⟨"city", "longtext", none⟩ rfl⟩

/-- C3: document-level deduplication.  Every facet the aggregation emits
comes from a map entry whose count is the number of distinct document ids
among the rows whose decomposed value list contains that atomic value
(`docsFor` filters the fetched rows by containment and projects the
document id); and the concrete dataset of one document storing `"A,A,B"`
yields exactly the facets A and B, each with count 1. -/
theorem c3_document_dedup :
    (∀ (rows : List (String × Int)) (dataType : String)
        (som : List (String × String)) (fv : CustomFieldValueOption),
        fv ∈ facetsOfMap dataType som (aggregateRows rows) →
        ∃ v ds, (v, ds) ∈ aggregateRows rows ∧
          fv = facetOfEntry dataType som v (ds.length : Int) ∧
          fv.Count = (((docsFor rows v).toFinset.card : Nat) : Int)) ∧
    facetsOfMap "string" [] (aggregateRows [("A,A,B", 1)]) =
      [⟨generateID "A", "A", 1⟩, ⟨generateID "B", "B", 1⟩] := by
  constructor
  · intro rows dt som fv hfv
    unfold facetsOfMap at hfv
    rw [List.mem_map] at hfv
    obtain ⟨e, he, heq⟩ := hfv
    have hmem : (e.1, e.2) ∈ aggregateRows rows := by
      have hpair : e = (e.1, e.2) := rfl
      rw [← hpair]
      exact he
    have hc := (aggregateRows_entry_count rows e.1 e.2 hmem).1
    refine ⟨e.1, e.2, hmem, heq.symm, ?_⟩
    rw [← heq]
    have hcnt : (facetOfEntry dt som e.1 (e.2.length : Int)).Count = (e.2.length : Int) := by
      unfold facetOfEntry
      split <;> rfl
    rw [hcnt, hc]
  · decide

/-- C3 witness: the structural conjunct applied to the `"A,A,B"` dataset at
the facet of value A. -/
theorem c3_document_dedup_witness :
    (⟨generateID "A", "A", (1 : Int)⟩ : CustomFieldValueOption) ∈
      facetsOfMap "string" [] (aggregateRows [("A,A,B", 1)]) ∧
    ∃ v ds, (v, ds) ∈ aggregateRows [("A,A,B", 1)] ∧
      (⟨generateID "A", "A", (1 : Int)⟩ : CustomFieldValueOption) =
        facetOfEntry "string" [] v (ds.length : Int) ∧
      (⟨generateID "A", "A", (1 : Int)⟩ : CustomFieldValueOption).Count =
        (((docsFor [("A,A,B", 1)] v).toFinset.card : Nat) : Int) :=
  ⟨by decide, c3_document_dedup.1 [("A,A,B", 1)] "string" [] _ (by decide)⟩

/-- C4 counterexample: `parseValueList` does not trim whitespace (the
element `" a "` keeps its surrounding spaces — trimming happens later at
the call sites), and the src/main.go variant does not split on `;`. -/
theorem c4_counterexample :
    parseValueList " a ,b" = [" a ", "b"] ∧
    trimSpace " a " ≠ " a " ∧
    parseValueList "a;b" = ["a", "b"] ∧
    parseValueListLegacy "a;b" = ["a;b"] := by
  refine ⟨?_, ?_, ?_, ?_⟩ <;> decide

/-- C4 amended: `parseValueList` splits on any of `,`, `:`, `;` and every
element is non-empty and free of separator characters, but may carry
leading or trailing whitespace; the legacy src/main.go variant splits only
on `,` and `:`. -/
theorem c4_decompose_amended (v s : String) :
    (s ∈ parseValueList v → s ≠ "" ∧ ∀ c ∈ s.data, isValueSep c = false) ∧
    (s ∈ parseValueListLegacy v → s ≠ "" ∧ ∀ c ∈ s.data, (c == ',' || c == ':') = false) := by
  constructor
  · intro h
    exact fieldsFunc_mem isValueSep v s h
  · intro h
    exact fieldsFunc_mem _ v s h

/-- C4 witness: the amended theorem at `" a ,b"` and at the legacy variant
on `"a;b"`. -/
theorem c4_decompose_amended_witness :
    (" a " ∈ parseValueList " a ,b") ∧ ("a;b" ∈ parseValueListLegacy "a;b") ∧
    (" a " ≠ "" ∧ ∀ c ∈ " a ".data, isValueSep c = false) ∧
    ("a;b" ≠ "" ∧ ∀ c ∈ "a;b".data, (c == ',' || c == ':') = false) :=
  ⟨by decide, by decide,
   (c4_decompose_amended " a ,b" " a ").1 (by decide),
   (c4_decompose_amended "a;b" "a;b").2 (by decide)⟩

/-- C5 counterexample: with `sortBy = label` the tie-break is count
descending, not ascending.  Two facets with equal label and counts 1 and 2
are returned with the count-2 facet first, violating the claimed
count-ascending tie order. -/
theorem c5_counterexample :
    sortValues [⟨"x", "A", 1⟩, ⟨"y", "A", 2⟩] "label" "asc" false =
      [⟨"y", "A", 2⟩, ⟨"x", "A", 1⟩] ∧
    ¬ List.Pairwise (fun a b : CustomFieldValueOption =>
        keyOf false a.Label < keyOf false b.Label ∨
          (keyOf false a.Label = keyOf false b.Label ∧ a.Count ≤ b.Count))
      (sortValues [⟨"x", "A", 1⟩, ⟨"y", "A", 2⟩] "label" "asc" false) := by
  have h : sortSwapTest "label" "asc" false ⟨"x", "A", 1⟩ ⟨"y", "A", 2⟩ = true :=
    (sortSwapTest_label_asc_true false ⟨"x", "A", 1⟩ ⟨"y", "A", 2⟩).mpr
      (Or.inr ⟨rfl, by decide⟩)
  have e : sortValues [⟨"x", "A", 1⟩, ⟨"y", "A", 2⟩] "label" "asc" false =
      [⟨"y", "A", 2⟩, ⟨"x", "A", 1⟩] := by
    show exchangeSort (sortSwapTest "label" "asc" false)
        [⟨"x", "A", 1⟩, ⟨"y", "A", 2⟩] = [⟨"y", "A", 2⟩, ⟨"x", "A", 1⟩]
    exact exchangeSort_pair _ _ _ h
  refine ⟨e, ?_⟩
  rw [e]
  intro hp
  have h2 := List.rel_of_pairwise_cons hp (List.mem_cons_self _ _)
  rcases h2 with h2 | h2
  · exact absurd h2 (lt_irrefl (keyOf false "A"))
  · exact absurd h2.2 (by decide)

/-- C5 amended: the orders `sortValues` actually establishes.  With
`sortBy = count` the primary key is count (per `sortOrder`) and ties are
broken by label ascending, as claimed; with `sortBy = label` the primary
key is label (per `sortOrder`, case-insensitive iff `ignoreCase`) but ties
are broken by count descending. -/
theorem c5_sort_ordering (vals : List CustomFieldValueOption) (ic : Bool) :
    List.Pairwise (fun a b => a.Count < b.Count ∨
        (a.Count = b.Count ∧ keyOf ic a.Label ≤ keyOf ic b.Label))
      (sortValues vals "count" "asc" ic) ∧
    List.Pairwise (fun a b => b.Count < a.Count ∨
        (a.Count = b.Count ∧ keyOf ic a.Label ≤ keyOf ic b.Label))
      (sortValues vals "count" "desc" ic) ∧
    List.Pairwise (fun a b => keyOf ic a.Label < keyOf ic b.Label ∨
        (keyOf ic a.Label = keyOf ic b.Label ∧ b.Count ≤ a.Count))
      (sortValues vals "label" "asc" ic) ∧
    List.Pairwise (fun a b => keyOf ic b.Label < keyOf ic a.Label ∨
        (keyOf ic a.Label = keyOf ic b.Label ∧ b.Count ≤ a.Count))
      (sortValues vals "label" "desc" ic) := by
  refine ⟨?_, ?_, ?_, ?_⟩
  · exact List.Pairwise.imp (fun hab => (sortSwapTest_count_asc_false ic _ _).mp hab)
      (exchangeSort_pairwise _
        (sortSwapTest_asymm "count" "asc" ic (Or.inl rfl) (Or.inl rfl))
        (sortSwapTest_trans "count" "asc" ic (Or.inl rfl) (Or.inl rfl)) vals)
  · exact List.Pairwise.imp (fun hab => (sortSwapTest_count_desc_false ic _ _).mp hab)
      (exchangeSort_pairwise _
        (sortSwapTest_asymm "count" "desc" ic (Or.inl rfl) (Or.inr rfl))
        (sortSwapTest_trans "count" "desc" ic (Or.inl rfl) (Or.inr rfl)) vals)
  · exact List.Pairwise.imp (fun hab => (sortSwapTest_label_asc_false ic _ _).mp hab)
      (exchangeSort_pairwise _
        (sortSwapTest_asymm "label" "asc" ic (Or.inr rfl) (Or.inl rfl))
        (sortSwapTest_trans "label" "asc" ic (Or.inr rfl) (Or.inl rfl)) vals)
  · exact List.Pairwise.imp (fun hab => (sortSwapTest_label_desc_false ic _ _).mp hab)
      (exchangeSort_pairwise _
        (sortSwapTest_asymm "label" "desc" ic (Or.inr rfl) (Or.inr rfl))
        (sortSwapTest_trans "label" "desc" ic (Or.inr rfl) (Or.inr rfl)) vals)

/-- C6: select label-to-id translation of the `in` operator.  For a field
with `data_type = "select"` and options parsed from `extra_data`, a leaf
`[f, "in", vals]` (field not excluded, non-empty operand list) emits one
`IN` condition over column `value_select` with one placeholder per operand
element in order, and one parameter per element: the label mapped through
`buildLabelToOptionIDMap` when present, the element unchanged otherwise. -/
theorem c6_select_in_translation (db : FieldDB) (k f : Int) (i : Nat) (pg : Bool)
    (name : String) (ed : GoVal) (vals : List GoVal)
    (hdb : db f = some ⟨name, "select", some ed⟩) (hfk : f ≠ k) (hne : vals ≠ []) :
    buildCustomFieldConditions db (.varr [.vnum f, .vstr "in", .varr vals]) k i pg =
      ([Cond.cfIn f "value_select" (List.range' i vals.length)],
       vals.map (fun v =>
         GoVal.vstr (match mapGet (buildLabelToOptionIDMap ed) (goValToString v) with
           | some optionID => optionID
           | none => goValToString v)),
       i + vals.length) := by
  have hv : vals.length > 0 := by
    cases vals with
    | nil => exact absurd rfl hne
    | cons a t => simp
  rw [bcfc_eq_leaf db [GoVal.vnum f, GoVal.vstr "in", GoVal.varr vals] k i pg
    (by intro s t h; simp at h)]
  unfold bcfcLeaf
  rw [if_pos (show ([GoVal.vnum f, GoVal.vstr "in", GoVal.varr vals] : List GoVal).length ≥ 3
    by simp)]
  dsimp only
  rw [if_neg (show ¬ (f == k) = true by simp [hfk])]
  rw [if_neg (show ¬ (("in" : String) == "exists") = true by decide)]
  rw [if_neg (show ¬ (("in" : String) == "isnull") = true by decide)]
  rw [if_pos (show (("in" : String) == "in") = true by decide)]
  rw [if_pos hv]
  rw [hdb]
  dsimp only
  rw [cfInLoop_eq]
  rfl

/-- C6 witness: the translation at the sample select field 7 with operand
`["Finance", "zzz"]` — Finance resolves to option id o1, zzz passes
through. -/
theorem c6_select_in_translation_witness :
    sampleDB 7 = some ⟨"category", "select", some sampleExtraData⟩ ∧
    (7 : Int) ≠ 5 ∧ ([GoVal.vstr "Finance", GoVal.vstr "zzz"] : List GoVal) ≠ [] ∧
    buildCustomFieldConditions sampleDB
        (.varr [.vnum 7, .vstr "in", .varr [.vstr "Finance", .vstr "zzz"]]) 5 1 true =
      ([Cond.cfIn 7 "value_select" [1, 2]], [.vstr "o1", .vstr "zzz"], 3) := by
  refine ⟨rfl, by decide, by simp, ?_⟩
  rw [c6_select_in_translation sampleDB 5 7 1 true "category" sampleExtraData
    [GoVal.vstr "Finance", GoVal.vstr "zzz"] rfl (by decide) (by simp)]
  rfl

/-- C7: builtin self-exclusion.  For every supported `filterType` and every
rule list containing a rule of the corresponding builtin rule type, the
excluding compiler emits no condition of the excluded rule type
(`condIsRuleType` marks, per constructor, which builtin rule type produced
a condition), and `GetBuiltinFilterValues` returns the same result as on
the rule list with every rule of the excluded type removed. -/
theorem c7_builtin_exclusion (s : DBState) (decode : String → Option GoVal)
    (rules : List (List (String × GoVal))) (ft : String) (pg : Bool)
    (hft : ft = "correspondent" ∨ ft = "document_type" ∨ ft = "tag" ∨
      ft = "storage_path" ∨ ft = "owner" ∨ ft = "asn")
    (hcontains : ∃ rule ∈ rules, ruleHasType rule (excludeRuleTypeFor ft) = true) :
    (∀ c ∈ (buildDocumentFilterQueryEx s.fieldMeta decode (.parsed rules) 0
        (excludeRuleTypeFor ft) pg).1,
      condIsRuleType (excludeRuleTypeFor ft) c = false) ∧
    GetBuiltinFilterValues s decode ft (.parsed rules) pg =
      GetBuiltinFilterValues s decode ft
        (.parsed (rules.filter (fun r => !(ruleHasType r (excludeRuleTypeFor ft))))) pg := by
  constructor
  · intro c hc
    have hc2 : c ∈ (bdfqLoopEx s.fieldMeta decode rules 0 (excludeRuleTypeFor ft) 1 pg).1 :=
      hc
    exact bdfqLoopEx_no_excluded s.fieldMeta decode rules 0 (excludeRuleTypeFor ft) pg 1 c hc2
  · have heq : buildDocumentFilterQueryExStr s.fieldMeta decode (.parsed rules) 0
        (excludeRuleTypeFor ft) pg =
        buildDocumentFilterQueryExStr s.fieldMeta decode
          (.parsed (rules.filter (fun r => !(ruleHasType r (excludeRuleTypeFor ft))))) 0
          (excludeRuleTypeFor ft) pg := by
      have hff : (rules.filter (fun r => !(ruleHasType r (excludeRuleTypeFor ft)))).filter
          (fun r => !(ruleHasType r (excludeRuleTypeFor ft))) =
          rules.filter (fun r => !(ruleHasType r (excludeRuleTypeFor ft))) := by
        rw [List.filter_eq_self]
        intro a ha
        exact (List.mem_filter.mp ha).2
      unfold buildDocumentFilterQueryExStr buildDocumentFilterQueryEx
      dsimp only
      rw [bdfqLoopEx_eq_filter s.fieldMeta decode rules 0 (excludeRuleTypeFor ft) pg 1]
      rw [bdfqLoopEx_eq_filter s.fieldMeta decode
        (rules.filter (fun r => !(ruleHasType r (excludeRuleTypeFor ft)))) 0
        (excludeRuleTypeFor ft) pg 1]
      rw [hff]
    unfold GetBuiltinFilterValues
    dsimp only
    rw [heq]

/-- C7 witness: filterType correspondent (excluded builtin rule type 1) on
a one-rule list consisting of exactly a correspondent rule. -/
theorem c7_builtin_exclusion_witness :
    (∃ rule ∈ [[("rule_type", GoVal.vnum 1), ("value", GoVal.vstr "9")]],
      ruleHasType rule (excludeRuleTypeFor "correspondent") = true) ∧
    (∀ c ∈ (buildDocumentFilterQueryEx sampleDBState.fieldMeta (fun _ => none)
        (.parsed [[("rule_type", GoVal.vnum 1), ("value", GoVal.vstr "9")]]) 0
        (excludeRuleTypeFor "correspondent") true).1,
      condIsRuleType (excludeRuleTypeFor "correspondent") c = false) ∧
    GetBuiltinFilterValues sampleDBState (fun _ => none) "correspondent"
        (.parsed [[("rule_type", GoVal.vnum 1), ("value", GoVal.vstr "9")]]) true =
      GetBuiltinFilterValues sampleDBState (fun _ => none) "correspondent"
        (.parsed ([[("rule_type", GoVal.vnum 1), ("value", GoVal.vstr "9")]].filter
          (fun r => !(ruleHasType r (excludeRuleTypeFor "correspondent"))))) true := by
  refine ⟨by decide, ?_, ?_⟩
  · exact (c7_builtin_exclusion sampleDBState (fun _ => none)
      [[("rule_type", GoVal.vnum 1), ("value", GoVal.vstr "9")]] "correspondent" true
      (Or.inl rfl) (by decide)).1
  · exact (c7_builtin_exclusion sampleDBState (fun _ => none)
      [[("rule_type", GoVal.vnum 1), ("value", GoVal.vstr "9")]] "correspondent" true
      (Or.inl rfl) (by decide)).2

/-- C8 counterexample: blank-bucket uniqueness fails for select fields.
A select field facet uses the raw stored value verbatim as its id, so a
document storing the literal value `"__blank__"` yields a data-derived
facet with id `"__blank__"` (label `"__blank__"`, count from the data)
next to the synthetic bucket: two output entries carry that id, and one
of them violates the claimed label `"(Blank)"`. -/
theorem c8_counterexample :
    GetValueCounts blankDBState (fun _ => none) 9 .emptyStr "" "" false true =
      .ok [⟨"__blank__", "(Blank)", 2⟩, ⟨"__blank__", "__blank__", 1⟩] ∧
    List.countP (fun fv => fv.ID == "__blank__")
        [(⟨"__blank__", "(Blank)", 2⟩ : CustomFieldValueOption),
         ⟨"__blank__", "__blank__", 1⟩] = 2 ∧
    (⟨"__blank__", "__blank__", (1 : Int)⟩ : CustomFieldValueOption).ID = "__blank__" ∧
    (⟨"__blank__", "__blank__", (1 : Int)⟩ : CustomFieldValueOption).Label ≠ "(Blank)" := by
  have hswap : sortSwapTest "count" "desc" false ⟨"__blank__", "__blank__", 1⟩
      ⟨"__blank__", "(Blank)", 2⟩ = true :=
    (sortSwapTest_count_desc_true false ⟨"__blank__", "__blank__", 1⟩
      ⟨"__blank__", "(Blank)", 2⟩).mpr (Or.inl (by decide))
  have hx : appendBlank (facetsOfMap "select" [] (aggregateRows [("__blank__", 1)]))
      (some 2) = [⟨"__blank__", "__blank__", 1⟩, ⟨"__blank__", "(Blank)", 2⟩] := by decide
  refine ⟨?_, by decide, rfl, by decide⟩
  show Except.ok (sortValues (appendBlank
      (facetsOfMap "select" [] (aggregateRows [("__blank__", 1)])) (some 2))
      "count" "desc" false) = _
  rw [hx]
  show Except.ok (exchangeSort (sortSwapTest "count" "desc" false)
      [⟨"__blank__", "__blank__", 1⟩, ⟨"__blank__", "(Blank)", 2⟩]) = _
  rw [exchangeSort_pair _ _ _ hswap]

/-- C8 amended: the blank bucket.  In the sorted output of `GetValueCounts`
(first conjunct) and of `GetFieldValues` (second conjunct), an option with
id `"__blank__"` occurs exactly once when the fetched blank count is
positive and not at all otherwise, and any such option is exactly
`{id: "__blank__", label: "(Blank)", count: blankCount}`.  For non-select
fields this is unconditional (data facets carry `generateID` hashes as
ids); for a select field the raw stored value is the facet id, so the
proviso that no stored atomic value is the literal `"__blank__"` is
needed — without it the property fails, see the counterexample above. -/
theorem c8_blank_bucket :
    (∀ (s : DBState) (decode : String → Option GoVal) (fieldID : Int)
        (input : FilterRulesInput) (sb so : String) (ic pg : Bool)
        (meta : FieldMeta) (out : List CustomFieldValueOption),
        s.fieldMeta fieldID = some meta →
        GetValueCounts s decode fieldID input sb so ic pg = .ok out →
        (meta.dataType = "select" →
          ∀ r ∈ gvcRows s decode input fieldID pg (getValueColumnName meta.dataType),
            "__blank__" ∉ rowParts r.1) →
        (List.countP (fun fv => fv.ID == "__blank__") out =
          if 0 < (gvcBlankCount s decode input fieldID pg
              (getValueColumnName meta.dataType)).getD 0 then 1 else 0) ∧
        ∀ fv ∈ out, fv.ID = "__blank__" →
          fv = blankFacetOf ((gvcBlankCount s decode input fieldID pg
            (getValueColumnName meta.dataType)).getD 0)) ∧
    (∀ (s : DBState) (fieldID : Int) (sb so : String) (ic pg : Bool)
        (meta : FieldMeta) (resp : CustomFieldValuesResponse),
        s.fieldMeta fieldID = some meta →
        GetFieldValues s fieldID sb so ic pg = .ok resp →
        (meta.dataType = "select" →
          ∀ r ∈ s.fetchRows (gfvQuery pg (getValueColumnName meta.dataType)) [.vnum fieldID],
            "__blank__" ∉ rowParts r.1) →
        (List.countP (fun fv => fv.ID == "__blank__") resp.Values =
          if 0 < (s.fetchCount (gfvBlankQuery pg (getValueColumnName meta.dataType))
              [.vnum fieldID]).getD 0 then 1 else 0) ∧
        ∀ fv ∈ resp.Values, fv.ID = "__blank__" →
          fv = blankFacetOf ((s.fetchCount (gfvBlankQuery pg (getValueColumnName meta.dataType))
            [.vnum fieldID]).getD 0)) := by
  constructor
  · intro s decode fieldID input sb so ic pg meta out hmeta hok hrows
    unfold GetValueCounts at hok
    rw [hmeta] at hok
    dsimp only at hok
    injection hok with hok
    subst hok
    exact blank_core _ _ _ _ _ _ _ hrows
  · intro s fieldID sb so ic pg meta resp hmeta hok hrows
    unfold GetFieldValues at hok
    rw [hmeta] at hok
    dsimp only at hok
    injection hok with hok
    subst hok
    dsimp only
    exact blank_core _ _ _ _ _ _ _ hrows

/-- C8 witness: `GetValueCounts` on the sample state at field 3 — one
stored value A with one document, blank count 2 — returns the blank bucket
followed by the A facet, and the blank conjuncts hold. -/
theorem c8_blank_bucket_witness :
    sampleDBState.fieldMeta 3 = some ⟨"city", "longtext", none⟩ ∧
    GetValueCounts sampleDBState (fun _ => none) 3 .emptyStr "" "" false true =
      .ok [⟨"__blank__", "(Blank)", 2⟩, ⟨"val-65", "A", 1⟩] ∧
    (("longtext" : String) = "select" →
      ∀ r ∈ gvcRows sampleDBState (fun _ => none) .emptyStr 3 true
        (getValueColumnName "longtext"), "__blank__" ∉ rowParts r.1) ∧
    (List.countP (fun fv => fv.ID == "__blank__")
        [(⟨"__blank__", "(Blank)", 2⟩ : CustomFieldValueOption), ⟨"val-65", "A", 1⟩] =
      if 0 < (gvcBlankCount sampleDBState (fun _ => none) .emptyStr 3 true
          (getValueColumnName "longtext")).getD 0 then 1 else 0) ∧
    (∀ fv ∈ [(⟨"__blank__", "(Blank)", 2⟩ : CustomFieldValueOption), ⟨"val-65", "A", 1⟩],
      fv.ID = "__blank__" →
        fv = blankFacetOf ((gvcBlankCount sampleDBState (fun _ => none) .emptyStr 3 true
          (getValueColumnName "longtext")).getD 0)) := by
  have hswap : sortSwapTest "count" "desc" false ⟨"val-65", "A", 1⟩
      ⟨"__blank__", "(Blank)", 2⟩ = true :=
    (sortSwapTest_count_desc_true false ⟨"val-65", "A", 1⟩ ⟨"__blank__", "(Blank)", 2⟩).mpr
      (Or.inl (by decide))
  have hx : appendBlank (facetsOfMap "longtext" [] (aggregateRows [("A", 1)])) (some 2) =
      [⟨"val-65", "A", 1⟩, ⟨"__blank__", "(Blank)", 2⟩] := by decide
  have hok : GetValueCounts sampleDBState (fun _ => none) 3 .emptyStr "" "" false true =
      .ok [⟨"__blank__", "(Blank)", 2⟩, ⟨"val-65", "A", 1⟩] := by
    show Except.ok (sortValues (appendBlank
        (facetsOfMap "longtext" [] (aggregateRows [("A", 1)])) (some 2))
        "count" "desc" false) = _
    rw [hx]
    show Except.ok (exchangeSort (sortSwapTest "count" "desc" false)
        [⟨"val-65", "A", 1⟩, ⟨"__blank__", "(Blank)", 2⟩]) = _
    rw [exchangeSort_pair _ _ _ hswap]
  have hmain := (c8_blank_bucket.1 sampleDBState (fun _ => none) 3 .emptyStr "" "" false true
    ⟨"city", "longtext", none⟩ [⟨"__blank__", "(Blank)", 2⟩, ⟨"val-65", "A", 1⟩]
    rfl hok (by decide))
  exact ⟨rfl, hok, by decide, hmain.1, hmain.2⟩

/-- C9: monotonic parameter index.  The condition list compiled from a
parsed rule list carries placeholder indices exactly `1 … n` in
left-to-right order, where `n` is the number of returned parameters
(`condPlaceholders` lists, in rendering order, the indices the SQL text of
a condition renders as `$i` on postgres); and `buildCustomFieldConditions`
returns a final argument index equal to its start index plus the number of
parameters it emitted. -/
theorem c9_parameter_index (db : FieldDB) (decode : String → Option GoVal)
    (rules : List (List (String × GoVal))) (k : Int) (pg : Bool)
    (q : GoVal) (i : Nat) :
    (condListPlaceholders (buildDocumentFilterQuery db decode (.parsed rules) k pg).1 =
      List.range' 1 (buildDocumentFilterQuery db decode (.parsed rules) k pg).2.1.length) ∧
    ((buildCustomFieldConditions db q k i pg).2.2 =
      i + (buildCustomFieldConditions db q k i pg).2.1.length) := by
  constructor
  · show condListPlaceholders (bdfqLoop db decode rules k 1 pg).1 =
      List.range' 1 (bdfqLoop db decode rules k 1 pg).2.1.length
    exact (bdfqLoop_inv db decode rules k pg 1).2
  · exact (bcfc_master db q k i pg).1

/-- C10: purity of sorting.  For every input and every parameter
combination, `sortValues` returns a permutation of its input: same length
and the same number of occurrences of every facet, none added, dropped or
altered.  (The source copies the slice before the in-place exchange sort,
so the input itself is untouched; in this pure embedding that copy makes
the function a plain function of its input.) -/
theorem c10_sort_purity (vals : List CustomFieldValueOption)
    (sortBy sortOrder : String) (ic : Bool) :
    List.Perm (sortValues vals sortBy sortOrder ic) vals ∧
    (sortValues vals sortBy sortOrder ic).length = vals.length ∧
    ∀ fv, (sortValues vals sortBy sortOrder ic).count fv = vals.count fv := by
  have h := sortValues_perm vals sortBy sortOrder ic
  exact ⟨h, h.length_eq, fun fv => h.count_eq fv⟩


end Paperless
